import Mathlib

/-!
# ClassifierDLL: a shallow embedding of `src/CPP/ClassifierDLL.cpp`

The translation unit keeps one process-wide session in global variables and
exports `Initialize`, `Predict`, `PredictFromCSV`, `GetClassName` and `Cleanup`.
Here the globals are a record that every operation receives and returns, the
file system, the C++ library number parsers and the ONNX runtime are fields of
a `World` record, and caller-supplied pointers are index-to-value functions.

Conventions of the embedding:

* `float` and `double` cells hold rationals; comparison and copying are exact,
  and the arithmetic of the standardizer is taken exactly. The one place where
  the code can produce a non-finite float from finite ones, the division of
  line 188 by a zero scale, yields `none` in place of a rational (`float_div`).
* `std::string` is a list of characters, `size_t` a natural number below
  `2 ^ 64` with wrap-around arithmetic, `int` an integer.
* A C++ exception inside a helper is `none` (or `Except.error`) of the helper;
  the `try`/`catch` of the exported function turns it into status `-999`.
* Undefined behaviour of an exported function (reading a vector past its end,
  dereferencing the null session pointer) is the result `none`.
* The `int` counter `line_number` of the reading loop is carried as a natural
  number (`line_number`). It is never read, so the rows do not depend on it;
  on a file of `2 ^ 31` or more lines `line_number++` overflows, which C++
  leaves undefined. Statements that are sensitive to that many lines assume
  `line_number < 2 ^ 31`.
* Fields named `engine_inputs` and `predict_calls` are ghost traces: they record
  which calls were made and have no counterpart in memory.
-/

set_option maxRecDepth 100000

namespace ClassifierDLL

/-! ## The environment of the library -/

/-- The engine session `Ort::Session` as `Predict` uses it: `Run` receives the
20 standardized features (an entry `none` is a non-finite float) and either
throws (`none`) or yields the pointer to the data of the probability tensor
(output slot 1). Looking up the input and output names is part of the same use
of the session. -/
structure Session where
  Run : List (Option ℚ) → Option (Nat → ℚ)

/-- Everything outside the translation unit. `open_file p` is the content a
stream opened on path `p` delivers, `none` when `is_open()` is false; `stod`
and `stof` are the library parsers, `none` when they throw; `create_env` tells
whether constructing `Ort::Env` succeeds and `create_session p` is the session
built from model path `p`, `none` when the constructor throws. -/
structure World where
  open_file : String → Option (List Char)
  stod : List Char → Option ℚ
  stof : List Char → Option ℚ
  create_env : Bool
  create_session : String → Option Session

/-- The global variables `g_env`, `g_session`, `g_mean`, `g_scale`, `g_labels`
and `g_initialized`. A null `unique_ptr` is `false` / `none`. -/
structure Globals where
  g_env : Bool
  g_session : Option Session
  g_mean : List ℚ
  g_scale : List ℚ
  g_labels : List (List Char)
  g_initialized : Bool

/-- The globals at program start (static initializers, lines 19-24). -/
def Globals.initial : Globals :=
  { g_env := false, g_session := none, g_mean := [], g_scale := [], g_labels := [],
    g_initialized := false }

/-! ## `std::string` and stream primitives -/

/-- The value `std::string::npos`, the largest `size_t`. -/
def npos : Nat := 2 ^ 64 - 1

/-- Addition of `size_t` values. -/
def size_add (a b : Nat) : Nat := (a + b) % 2 ^ 64

/-- Subtraction of `size_t` values (both below `2 ^ 64`). -/
def size_sub (a b : Nat) : Nat := (a + 2 ^ 64 - b) % 2 ^ 64

/-- Conversion of a `size_t` to `int` (32 bits, two's complement), as in
`*sample_count = samples.size()`. -/
def size_to_int (n : Nat) : Int :=
  if n % 2 ^ 32 < 2 ^ 31 then ((n % 2 ^ 32 : Nat) : Int) else ((n % 2 ^ 32 : Nat) : Int) - 2 ^ 32

/-- Scan for `needle` in the text `s`, whose first character has index `i`. -/
def find_from (needle : List Char) : List Char → Nat → Nat
  | [], i => if needle = [] then i else npos
  | c :: cs, i => if needle.isPrefixOf (c :: cs) then i else find_from needle cs (i + 1)

/-- The call `s.find(needle, pos)`: the first index at or after `pos` where
`needle` occurs, `npos` when there is none or `pos` is past the end. -/
def find (s needle : List Char) (pos : Nat) : Nat :=
  if pos > s.length then npos else find_from needle (s.drop pos) pos

/-- The call `s.substr(pos, count)`: throws `out_of_range` (`none`) when
`pos > s.size()`, otherwise the at most `count` characters from `pos` on. -/
def substr (s : List Char) (pos count : Nat) : Option (List Char) :=
  if pos > s.length then none else some ((s.drop pos).take count)

/-- The predicate `::isspace` in the C locale. -/
def isspace (c : Char) : Bool :=
  c = ' ' || c = '\t' || c = '\n' || c = '\x0b' || c = '\x0c' || c = '\r'

/-- One call `getline(stream, out, delim)` on the unread part of a stream:
`none` when nothing is left (the stream fails and the loop ends), otherwise the
characters before the first `delim` and the part left unread after it. -/
def getline (delim : Char) (stream : List Char) : Option (List Char × List Char) :=
  match stream with
  | [] => none
  | _ :: _ =>
    some (stream.takeWhile (fun c => c != delim), (stream.dropWhile (fun c => c != delim)).drop 1)

/-- The call `std::to_string(i)`. -/
def to_string (i : Nat) : List Char := Nat.toDigits 10 i

/-- The call `v.resize(n)` on a vector of strings: cut to `n` entries or
padded with empty strings. -/
def resize (v : List (List Char)) (n : Nat) : List (List Char) :=
  v.take n ++ List.replicate (n - v.length) []

/-! ## `parse_json_array` (lines 27-45) -/

/-- The loop of lines 38-43 with `fuel` iterations allowed: read `item` up to
the next comma, erase its whitespace, and append `stod(item)` when `item` is
not empty. A throwing `stod` ends the function with the exception. -/
def parse_json_items (stod : List Char → Option ℚ) : Nat → List Char → List ℚ → Option (List ℚ)
  | 0, _, result => some result
  | fuel + 1, ss, result =>
    match getline ',' ss with
    | none => some result
    | some (item, rest) =>
      let item := item.filter (fun c => !isspace c)
      if item = [] then parse_json_items stod fuel rest result
      else
        match stod item with
        | none => none
        | some x => parse_json_items stod fuel rest (result ++ [x])

/-- The function `parse_json_array(json_content, key)`; `none` is an exception
leaving the function. Every `getline` consumes a character, so the fuel
`array_str.length + 1` lets the loop run to the end of `array_str`. -/
def parse_json_array (stod : List Char → Option ℚ) (json_content key : List Char) :
    Option (List ℚ) :=
  let key_pos := find json_content (['"'] ++ key ++ ['"']) 0
  if key_pos = npos then some []
  else
    let array_start := find json_content ['['] key_pos
    let array_end := find json_content [']'] array_start
    match substr json_content (size_add array_start 1)
        (size_sub (size_sub array_end array_start) 1) with
    | none => none
    | some array_str => parse_json_items stod (array_str.length + 1) array_str []

/-! ## The row parser (lines 78-100 and, verbatim, 261-284) -/

/-- The inner loop of lines 273-279 (89-95): read `value` up to the next comma
and append `stof(value)` to `row`; the first throwing `stof` breaks the loop. -/
def read_fields (stof : List Char → Option ℚ) : Nat → List Char → List ℚ → List ℚ
  | 0, _, row => row
  | fuel + 1, ss, row =>
    match getline ',' ss with
    | none => row
    | some (value, rest) =>
      match stof value with
      | none => row
      | some x => read_fields stof fuel rest (row ++ [x])

/-- The outer loop of lines 265-284 (81-100) on the variables `samples` and
`line_number`: count the line, skip it when it is empty, otherwise parse it
with `read_fields` and keep the row when `row.size() == 20`. The counter is
the mathematical number of lines read; the `int` of the source overflows when
it would reach `2 ^ 31`. -/
def read_lines (stof : List Char → Option ℚ) :
    Nat → List Char → List (List ℚ) → Nat → List (List ℚ) × Nat
  | 0, _, samples, line_number => (samples, line_number)
  | fuel + 1, file, samples, line_number =>
    match getline '\n' file with
    | none => (samples, line_number)
    | some (line, rest) =>
      let line_number := line_number + 1
      if line = [] then read_lines stof fuel rest samples line_number
      else
        let row := read_fields stof (line.length + 1) line []
        if row.length = 20 then read_lines stof fuel rest (samples ++ [row]) line_number
        else read_lines stof fuel rest samples line_number

/-- The vector `samples` after the reading loop has consumed the whole stream
(every `getline` consumes a character, so `content.length + 1` iterations reach
the end). -/
def csv_rows (stof : List Char → Option ℚ) (content : List Char) : List (List ℚ) :=
  (read_lines stof (content.length + 1) content [] 0).1

/-- The value the counter `line_number` reaches when the reading loop has
consumed the whole stream: the number of lines read. The run of the loop is
defined in C++ only while this stays below `2 ^ 31`. -/
def line_number (stof : List Char → Option ℚ) (content : List Char) : Nat :=
  (read_lines stof (content.length + 1) content [] 0).2

/-- The function `read_csv(filename)` (lines 70-103). -/
def read_csv (w : World) (filename : String) : List (List ℚ) :=
  match w.open_file filename with
  | none => []
  | some content => csv_rows w.stof content

/-! ## `Initialize` (lines 106-169) -/

/-- The loop of lines 140-148 over the remaining indices `i`: when the quoted
key `"i"` occurs, slot `i` receives the text between the first quote after the
key and the quote after that. A throwing `substr` leaves the loop with the
slots written so far (`Except.error`). -/
def parse_labels (label_content : List Char) :
    List Nat → List (List Char) → Except (List (List Char)) (List (List Char))
  | [], labels => .ok labels
  | i :: is, labels =>
    let key := ['"'] ++ to_string i ++ ['"']
    let pos := find label_content key 0
    if pos = npos then parse_labels label_content is labels
    else
      let value_start := size_add (find label_content ['"'] (size_add pos key.length)) 1
      let value_end := find label_content ['"'] value_start
      match substr label_content value_start (size_sub value_end value_start) with
      | none => .error labels
      | some value => parse_labels label_content is (labels.set i value)

/-- The exported `Initialize(model_path, scaler_path, label_path)`: the status
it returns and the globals it leaves. Each assignment to a global takes effect
where the source makes it, so a later failure keeps the earlier writes. -/
def Initialize (w : World) (g : Globals) (model_path scaler_path label_path : String) :
    Int × Globals :=
  match w.open_file scaler_path with
  | none => (-1, g)
  | some scaler_content =>
    match parse_json_array w.stod scaler_content "mean".toList with
    | none => (-999, g)
    | some mean =>
      let g1 := { g with g_mean := mean }
      match parse_json_array w.stod scaler_content "scale".toList with
      | none => (-999, g1)
      | some scale =>
        let g2 := { g1 with g_scale := scale }
        if g2.g_mean.length ≠ 20 ∨ g2.g_scale.length ≠ 20 then (-2, g2)
        else
          match w.open_file label_path with
          | none => (-3, g2)
          | some label_content =>
            match parse_labels label_content (List.range 6) (resize g2.g_labels 6) with
            | .error labels => (-999, { g2 with g_labels := labels })
            | .ok labels =>
              let g3 := { g2 with g_labels := labels }
              if g3.g_labels.length ≠ 6 then (-3, g3)
              else if !w.create_env then (-999, g3)
              else
                let g4 := { g3 with g_env := true }
                match w.create_session model_path with
                | none => (-999, g4)
                | some session =>
                  (0, { g4 with g_session := some session, g_initialized := true })

/-! ## `Predict` (lines 172-242) -/

/-- What a call of `Predict` leaves: the returned status, the caller's two
output cells, and the ghost trace of the inputs on which the engine was run. -/
structure PredictResult where
  status : Int
  probabilities : Nat → ℚ
  predicted_class : Int
  engine_inputs : List (List (Option ℚ))

/-- The float division `a / b` of line 188: the quotient for a non-zero
divisor; for a zero divisor the float is an infinity or NaN, which is not a
rational (`none`). Which of the three it is depends on the signs of `a` and of
the float zero `b`, and the rationals do not record the sign of a zero. -/
def float_div (a b : ℚ) : Option ℚ :=
  if b = 0 then none else some (a / b)

/-- The vector `scaled_features` after the loop of lines 186-189. Reading
`g_mean[i]` or `g_scale[i]` past the end of the vector is undefined (`none`). -/
def scaled_features (g : Globals) (features : Nat → ℚ) : Option (List (Option ℚ)) :=
  if 20 ≤ g.g_mean.length ∧ 20 ≤ g.g_scale.length then
    some ((List.range 20).map fun i =>
      float_div (features i - g.g_mean.getD i 0) (g.g_scale.getD i 0))
  else none

/-- The variables of the loop of lines 224-233. -/
structure ArgMax where
  probabilities : Nat → ℚ
  max_prob : ℚ
  max_idx : Int

/-- The body of the loop of lines 227-233 at index `i`. -/
def argmax_step (output_data : Nat → ℚ) (s : ArgMax) (i : Nat) : ArgMax :=
  let probabilities := Function.update s.probabilities i (output_data i)
  if output_data i > s.max_prob then
    { probabilities := probabilities, max_prob := output_data i, max_idx := i }
  else { s with probabilities := probabilities }

/-- The exported `Predict(features, feature_count, probabilities,
predicted_class)`; the last two arguments are the contents of the caller's
output cells before the call. -/
def Predict (g : Globals) (features : Nat → ℚ) (feature_count : Int)
    (probabilities : Nat → ℚ) (predicted_class : Int) : Option PredictResult :=
  if !g.g_initialized then
    some { status := -1, probabilities := probabilities, predicted_class := predicted_class,
           engine_inputs := [] }
  else if feature_count ≠ 20 then
    some { status := -2, probabilities := probabilities, predicted_class := predicted_class,
           engine_inputs := [] }
  else
    match scaled_features g features with
    | none => none
    | some x =>
      match g.g_session with
      | none => none
      | some session =>
        match session.Run x with
        | none =>
          some { status := -999, probabilities := probabilities,
                 predicted_class := predicted_class, engine_inputs := [x] }
        | some output_data =>
          let s := (List.range 6).foldl (argmax_step output_data)
            { probabilities := probabilities, max_prob := output_data 0, max_idx := 0 }
          some { status := 0, probabilities := s.probabilities, predicted_class := s.max_idx,
                 engine_inputs := [x] }

/-! ## `PredictFromCSV` (lines 245-316) -/

/-- What a call of `PredictFromCSV` leaves: the returned status, the caller's
three output areas, and the ghost trace of the samples handed to `Predict`. -/
structure BatchResult where
  status : Int
  predicted_classes : Nat → Int
  all_probabilities : Nat → ℚ
  sample_count : Int
  predict_calls : List (List ℚ)

/-- The pointer `samples[i].data()`. -/
def data (row : List ℚ) : Nat → ℚ := fun j => row.getD j 0

/-- The loop of lines 306-308 for sample `i`. -/
def store_probabilities (all_probabilities : Nat → ℚ) (i : Nat) (probabilities : Nat → ℚ) :
    Nat → ℚ :=
  (List.range 6).foldl (fun a j => Function.update a (i * 6 + j) (probabilities j))
    all_probabilities

/-- The loop of lines 294-309 from index `i` on, over the samples not yet
predicted. The locals `probabilities` and `predicted_class` of iteration `i` are
uninitialized; `stack_probs i` and `stack_class i` are the values they happen to
hold. -/
def predict_loop (g : Globals) (stack_probs : Nat → Nat → ℚ) (stack_class : Nat → Int) :
    List (List ℚ) → Nat → BatchResult → Option BatchResult
  | [], _, acc => some { acc with status := 0 }
  | row :: rest, i, acc =>
    match Predict g (data row) 20 (stack_probs i) (stack_class i) with
    | none => none
    | some r =>
      let calls := acc.predict_calls ++ [row]
      if r.status ≠ 0 then some { acc with status := r.status, predict_calls := calls }
      else
        predict_loop g stack_probs stack_class rest (i + 1)
          { acc with
            predicted_classes := Function.update acc.predicted_classes i r.predicted_class,
            all_probabilities := store_probabilities acc.all_probabilities i r.probabilities,
            predict_calls := calls }

/-- The exported `PredictFromCSV(csv_path, predicted_classes, all_probabilities,
sample_count)`; the three output arguments are the contents of the caller's
areas before the call. The counter of the reading loop does not enter the
result; `line_number` gives its value, and a run is defined in C++ only when
that stays below `2 ^ 31`. -/
def PredictFromCSV (w : World) (g : Globals) (csv_path : String)
    (predicted_classes : Nat → Int) (all_probabilities : Nat → ℚ) (sample_count : Int)
    (stack_probs : Nat → Nat → ℚ) (stack_class : Nat → Int) : Option BatchResult :=
  if !g.g_initialized then
    some { status := -1, predicted_classes := predicted_classes,
           all_probabilities := all_probabilities, sample_count := sample_count,
           predict_calls := [] }
  else
    match w.open_file csv_path with
    | none =>
      some { status := -2, predicted_classes := predicted_classes,
             all_probabilities := all_probabilities, sample_count := 0, predict_calls := [] }
    | some content =>
      let samples := csv_rows w.stof content
      if samples.isEmpty then
        some { status := -2, predicted_classes := predicted_classes,
               all_probabilities := all_probabilities, sample_count := 0, predict_calls := [] }
      else
        predict_loop g stack_probs stack_class samples 0
          { status := 0, predicted_classes := predicted_classes,
            all_probabilities := all_probabilities,
            sample_count := size_to_int samples.length, predict_calls := [] }

/-! ## `Cleanup` (lines 345-352) -/

/-- The exported `Cleanup()`. -/
def Cleanup (_g : Globals) : Globals :=
  { g_session := none, g_env := false, g_mean := [], g_scale := [], g_labels := [],
    g_initialized := false }

/-! ## `load_labels` (lines 48-67) -/

/-- The function `load_labels(filename)`: the empty vector when the file does
not open, otherwise six empty strings filled in by the loop of lines 57-65
(the same loop as lines 140-148). `none` is an exception leaving the
function. -/
def load_labels (w : World) (filename : String) : Option (List (List Char)) :=
  match w.open_file filename with
  | none => some []
  | some content =>
    match parse_labels content (List.range 6) (List.replicate 6 []) with
    | .error _ => none
    | .ok labels => some labels

/-! ## `GetClassName`, `GetClassCount`, `GetFeatureCount` (lines 319-342) -/

/-- Conversion of an `int` to `size_t`, as for the last argument of
`mbstowcs(buffer, label.c_str(), buffer_size)`. -/
def int_to_size (z : Int) : Nat := (z % 2 ^ 64).toNat

/-- The C string `s.c_str()` denotes: the characters before the first NUL. -/
def c_str (s : List Char) : List Char := s.takeWhile (fun c => c != Char.ofNat 0)

/-- The exported `GetClassName(class_index, buffer, buffer_size)`: the status
and the content of the caller's buffer after the call. The library function
`mbstowcs` is a parameter: `mbstowcs dest src n` is the content of `dest` after
the call `mbstowcs(dest, src, n)`. Reading `g_labels[class_index]` past the end
of the vector is undefined (`none`). -/
def GetClassName (mbstowcs : (Nat → Char) → List Char → Nat → (Nat → Char)) (g : Globals)
    (class_index : Int) (buffer : Nat → Char) (buffer_size : Int) :
    Option (Int × (Nat → Char)) :=
  if !g.g_initialized then some (-1, buffer)
  else if class_index < 0 ∨ class_index ≥ 6 then some (-2, buffer)
  else
    match g.g_labels[class_index.toNat]? with
    | none => none
    | some label => some (0, mbstowcs buffer (c_str label) (int_to_size buffer_size))

/-- The exported `GetClassCount()`. -/
def GetClassCount : Int := 6

/-- The exported `GetFeatureCount()`. -/
def GetFeatureCount : Int := 20

/-! ## Sequences of calls -/

/-- A call of one of the five exported operations, with its arguments and the
world it runs in (files and runtime may differ from call to call). -/
inductive Call where
  | init (w : World) (model_path scaler_path label_path : String)
  | predict (features : Nat → ℚ) (feature_count : Int) (probabilities : Nat → ℚ)
      (predicted_class : Int)
  | predictFromCSV (w : World) (csv_path : String) (predicted_classes : Nat → Int)
      (all_probabilities : Nat → ℚ) (sample_count : Int)
  | getClassName (class_index : Int) (buffer : Nat → Char) (buffer_size : Int)
  | cleanup

/-- The globals after a call: only `Initialize` and `Cleanup` assign to them. -/
def Call.after (g : Globals) : Call → Globals
  | .init w model_path scaler_path label_path =>
    (Initialize w g model_path scaler_path label_path).2
  | .predict _ _ _ _ => g
  | .predictFromCSV _ _ _ _ _ => g
  | .getClassName _ _ _ => g
  | .cleanup => Cleanup g

/-- The globals after a sequence of calls made from the globals `g`. -/
def run (g : Globals) (calls : List Call) : Globals := calls.foldl Call.after g

/-- The states some sequence of calls reaches from the globals of program start. -/
def Reachable (g : Globals) : Prop := ∃ calls, run Globals.initial calls = g

/-- Every `Initialize` of the sequence is called on an uninitialized session
(the sequence started from the globals `g`). -/
def guarded (g : Globals) : List Call → Prop
  | [] => True
  | c :: cs =>
    (match c with
      | .init _ _ _ _ => g.g_initialized = false
      | _ => True) ∧ guarded (c.after g) cs

/-! ## Reference definitions in the words of the specification -/

/-- The pieces of a text between successive occurrences of the delimiter `d`:
a text with `n` delimiters has `n + 1` pieces, some possibly empty. -/
def split_text (d : Char) : List Char → List (List Char)
  | [] => [[]]
  | c :: cs =>
    if c = d then [] :: split_text d cs
    else
      match split_text d cs with
      | [] => [[c]]
      | t :: ts => (c :: t) :: ts

/-- The numbers of the fields that come before the first field `stof` cannot
parse (all of them when every field parses). -/
def parsed_fields (stof : List Char → Option ℚ) : List (List Char) → List ℚ
  | [] => []
  | v :: vs =>
    match stof v with
    | none => []
    | some x => x :: parsed_fields stof vs

/-- The row a line contributes: its parsed fields when exactly 20 fields parse
before the first unparsable one (or the end of the line), nothing otherwise. -/
def row_of_line (stof : List Char → Option ℚ) (line : List Char) : Option (List ℚ) :=
  let row := parsed_fields stof (split_text ',' line)
  if row.length = 20 then some row else none

/-- The rows of the non-blank lines among `lines`, in order. -/
def accepted_lines (stof : List Char → Option ℚ) (lines : List (List Char)) : List (List ℚ) :=
  (lines.filter (fun line => !line.isEmpty)).filterMap (row_of_line stof)

/-- The accepted samples as the specification words them: go through the
non-blank lines in file order and keep the parsed fields of each line for
which exactly 20 fields parse before the first unparsable one. -/
def accepted_rows (stof : List Char → Option ℚ) (content : List Char) : List (List ℚ) :=
  accepted_lines stof (split_text '\n' content)

/-- The index `c` is the smallest index in `0..5` whose value is the maximum of
the six values `v 0, ..., v 5`. -/
def first_max_index (v : Nat → ℚ) (c : Nat) : Prop :=
  c < 6 ∧ (∀ j, j < 6 → v j ≤ v c) ∧ (∀ j, j < c → v j < v c)

/-- The text `needle` occurs in `text` at position `p` and at no earlier
position. -/
def first_occurrence (needle text : List Char) (p : Nat) : Prop :=
  needle.isPrefixOf (text.drop p) = true ∧
    ∀ q, q < p → needle.isPrefixOf (text.drop q) = false

/-- A token with all its whitespace removed. -/
def erase_spaces (t : List Char) : List Char := t.filter (fun c => !isspace c)

/-- The pieces with their whitespace removed, without those that are then
empty. -/
def nonempty_tokens (pieces : List (List Char)) : List (List Char) :=
  (pieces.map erase_spaces).filter (fun t => !t.isEmpty)

/-- The comma-separated tokens of an array content, each with its whitespace
removed, without those that are then empty. -/
def json_tokens (content : List Char) : List (List Char) :=
  nonempty_tokens (split_text ',' content)

/-- The parsed values of the tokens in order; an exception (`none`) when some
token does not parse. -/
def parse_all (stod : List Char → Option ℚ) : List (List Char) → Option (List ℚ)
  | [] => some []
  | t :: ts =>
    match stod t with
    | none => none
    | some x => (parse_all stod ts).map (fun xs => x :: xs)

/-! ## A concrete environment for the examples -/

/-- A number parser for the examples: it reads a non-empty run of decimal
digits and throws on anything else. -/
def example_number (s : List Char) : Option ℚ :=
  if s ≠ [] ∧ s.all Char.isDigit = true then
    some (((s.foldl (fun n c => 10 * n + (c.toNat - 48)) 0 : Nat) : ℚ))
  else none

/-- An engine session that answers every input with the listed values. -/
def table_session (out : List ℚ) : Session :=
  { Run := fun _ => some (data out) }

/-- Initialized globals with the identity profile and the given session. -/
def example_globals (session : Session) : Globals :=
  { g_env := true, g_session := some session, g_mean := List.replicate 20 0,
    g_scale := List.replicate 20 1, g_labels := List.replicate 6 [], g_initialized := true }

/-- An engine session that throws on an input whose first entry is 7 and
otherwise echoes the entries of its input, a non-finite entry as 0. -/
def picky_session : Session :=
  { Run := fun x =>
      if x.headD none = some 7 then none else some (fun j => (x.getD j none).getD 0) }

/-- A batch file: a row of 20 numeric fields, a blank line, a row of 19 fields. -/
def example_csv : List Char :=
  ("1,2,3,4,5,6,7,8,9,10,11,12,13,14,15,16,17,18,19,20\n" ++ "\n" ++
    "1,2,3,4,5,6,7,8,9,10,11,12,13,14,15,16,17,18,19\n").toList

/-- A batch file of three rows of 20 fields; the second row starts with 7. -/
def example_csv_three : List Char :=
  ("3,9,1,0,0,0,0,0,0,0,0,0,0,0,0,0,0,0,0,0\n" ++
    "7,0,0,0,0,0,0,0,0,0,0,0,0,0,0,0,0,0,0,0\n" ++
    "5,0,0,0,0,0,0,0,0,0,0,0,0,0,0,0,0,0,0,0\n").toList

/-- A batch file without an acceptable row: two blank lines and a short row. -/
def example_csv_blank : List Char := "\n\n1,2\n".toList

/-- A scaling artifact with 20 means and 20 scales, all of them zero. -/
def example_scaler : List Char :=
  ("\x7b\"mean\": [0,0,0,0,0,0,0,0,0,0,0,0,0,0,0,0,0,0,0,0], " ++
    "\"scale\": [0,0,0,0,0,0,0,0,0,0,0,0,0,0,0,0,0,0,0,0]\x7d").toList

/-- A scaling artifact whose arrays are too short. -/
def example_scaler_short : List Char :=
  "\x7b\"mean\": [1, 2], \"scale\": [3]\x7d".toList

/-- A label artifact with the keys 0 and 2 only. -/
def example_labels : List Char :=
  "\x7b\"0\": \"cat\", \"2\": \"dog\"\x7d".toList

/-- A world with the files above, a working runtime and one model. -/
def example_world : World :=
  { open_file := fun p =>
      if p = "scaler.json" then some example_scaler
      else if p = "short.json" then some example_scaler_short
      else if p = "labels.json" then some example_labels
      else if p = "batch.csv" then some example_csv
      else if p = "three.csv" then some example_csv_three
      else if p = "blank.csv" then some example_csv_blank
      else none,
    stod := example_number,
    stof := example_number,
    create_env := true,
    create_session := fun p => if p = "model.onnx" then some picky_session else none }

/-- A scaling artifact whose mean array holds a token that is not a number. -/
def example_scaler_bad_token : List Char :=
  "\x7b\"mean\": [1, x], \"scale\": [1]\x7d".toList

/-- A label artifact with the key 1 only. -/
def example_labels_one : List Char :=
  "\x7b\"1\": \"bird\"\x7d".toList

/-- A world for calls that are repeated: the files of `example_world`, two more
artifacts, and the same single model. -/
def retry_world : World :=
  { open_file := fun p =>
      if p = "scaler.json" then some example_scaler
      else if p = "short.json" then some example_scaler_short
      else if p = "badtoken.json" then some example_scaler_bad_token
      else if p = "labels.json" then some example_labels
      else if p = "labels_one.json" then some example_labels_one
      else none,
    stod := example_number,
    stof := example_number,
    create_env := true,
    create_session := fun p => if p = "model.onnx" then some picky_session else none }

/-- A conversion for the examples: every character is a single-byte character;
at most `n` characters of `src` are stored, followed by a terminating NUL when
there is room for it. -/
def example_mbstowcs (dest : Nat → Char) (src : List Char) (n : Nat) : Nat → Char :=
  fun k =>
    if k < min src.length n then src.getD k (Char.ofNat 0)
    else if k = src.length ∧ k < n then Char.ofNat 0
    else dest k

/-- A world in which every path opens and delivers `content`, with a working
runtime and the echoing engine. -/
def one_file_world (content : List Char) : World :=
  { open_file := fun _ => some content,
    stod := example_number,
    stof := example_number,
    create_env := true,
    create_session := fun _ => some picky_session }

/-- The globals after a successful `Initialize` at program start. -/
def example_initialized : Globals :=
  (Initialize example_world Globals.initial "model.onnx" "scaler.json" "labels.json").2

/-- Initialized globals with every mean 1 and every scale 2. -/
def shifted_globals : Globals :=
  { g_env := true, g_session := some picky_session, g_mean := List.replicate 20 1,
    g_scale := List.replicate 20 2, g_labels := List.replicate 6 [], g_initialized := true }

/-- The globals after an `Initialize` at program start that loads the scaler
and the example labels and then fails to load the model. -/
def example_after_failure : Globals :=
  (Initialize retry_world Globals.initial "other.onnx" "scaler.json" "labels.json").2

/-- The globals after a successful `Initialize` followed by an `Initialize`
with the short scaling artifact. -/
def example_reinitialized : Globals :=
  run Globals.initial
    [Call.init retry_world "model.onnx" "scaler.json" "labels.json",
     Call.init retry_world "model.onnx" "short.json" "labels.json"]

/-! ## Lemmas on `Predict` -/

theorem argmax_loop_invariant (output_data probabilities : Nat → ℚ) (n : Nat) :
    let s := (List.range n).foldl (argmax_step output_data)
      { probabilities := probabilities, max_prob := output_data 0, max_idx := 0 }
    (∃ c : Nat, s.max_idx = (c : Int) ∧ s.max_prob = output_data c ∧ (c = 0 ∨ c < n) ∧
        (∀ j, j < n → output_data j ≤ output_data c) ∧
        (∀ j, j < c → output_data j < output_data c)) ∧
      (∀ i, i < n → s.probabilities i = output_data i) ∧
      (∀ i, n ≤ i → s.probabilities i = probabilities i) := by
  induction n with
  | zero =>
    refine ⟨⟨0, rfl, rfl, Or.inl rfl, ?_, ?_⟩, ?_, ?_⟩
    · intro j hj; omega
    · intro j hj; omega
    · intro i hi; omega
    · intro i _; rfl
  | succ n ih =>
    obtain ⟨⟨c, hc, hmax, hcn, hle, hlt⟩, hcopy, hrest⟩ := ih
    simp only [List.range_succ, List.foldl_append, List.foldl_cons, List.foldl_nil]
    generalize (List.range n).foldl (argmax_step output_data)
      { probabilities := probabilities, max_prob := output_data 0, max_idx := 0 } = s at *
    have hprob : ∀ t : ArgMax, t.probabilities = Function.update s.probabilities n (output_data n) →
        (∀ i, i < n + 1 → t.probabilities i = output_data i) ∧
        (∀ i, n + 1 ≤ i → t.probabilities i = probabilities i) := by
      intro t ht
      constructor
      · intro i hi
        rw [ht]
        by_cases h : i = n
        · subst h; simp
        · rw [Function.update_noteq h]; exact hcopy i (by omega)
      · intro i hi
        rw [ht, Function.update_noteq (by omega)]
        exact hrest i (by omega)
    unfold argmax_step
    by_cases hgt : output_data n > s.max_prob
    · rw [if_pos hgt]
      refine ⟨⟨n, rfl, rfl, Or.inr (by omega), ?_, ?_⟩, hprob _ rfl⟩
      · intro j hj
        by_cases h : j = n
        · subst h; exact le_refl _
        · have := hle j (by omega)
          rw [hmax] at hgt
          exact le_of_lt (lt_of_le_of_lt this hgt)
      · intro j hj
        have := hle j hj
        rw [hmax] at hgt
        exact lt_of_le_of_lt this hgt
    · rw [if_neg hgt]
      refine ⟨⟨c, hc, hmax, ?_, ?_, hlt⟩, hprob _ rfl⟩
      · rcases hcn with h | h
        · exact Or.inl h
        · exact Or.inr (by omega)
      · intro j hj
        by_cases h : j = n
        · subst h; rw [hmax] at hgt; exact not_lt.mp hgt
        · exact hle j (by omega)

/-- Every way `Predict` can return status 0: the session is initialized, 20
features were announced, and the engine returned an output for the scaled
features. -/
theorem Predict_eq_some_zero (g : Globals) (features : Nat → ℚ) (feature_count : Int)
    (probabilities : Nat → ℚ) (predicted_class : Int) (r : PredictResult)
    (h : Predict g features feature_count probabilities predicted_class = some r)
    (h0 : r.status = 0) :
    g.g_initialized = true ∧ feature_count = 20 ∧
    ∃ x session output_data, scaled_features g features = some x ∧
      g.g_session = some session ∧ session.Run x = some output_data ∧
      r = { status := 0,
            probabilities := ((List.range 6).foldl (argmax_step output_data)
              { probabilities := probabilities, max_prob := output_data 0,
                max_idx := 0 }).probabilities,
            predicted_class := ((List.range 6).foldl (argmax_step output_data)
              { probabilities := probabilities, max_prob := output_data 0,
                max_idx := 0 }).max_idx,
            engine_inputs := [x] } := by
  unfold Predict at h
  by_cases hi : g.g_initialized = true
  · by_cases hf : feature_count = 20
    · simp only [hi, hf] at h
      cases hx : scaled_features g features with
      | none => simp [hx] at h
      | some x =>
        cases hs : g.g_session with
        | none => simp [hx, hs] at h
        | some session =>
          cases hr : session.Run x with
          | none =>
            simp [hx, hs, hr] at h
            subst h
            simp at h0
          | some output_data =>
            simp [hx, hs, hr] at h
            exact ⟨hi, hf, x, session, output_data, rfl, rfl, hr, h.symm⟩
    · simp [hi, hf] at h
      subst h
      simp at h0
  · simp [hi] at h
    subst h
    simp at h0

/-! ## Lemmas on the row parser -/

theorem split_text_eq (d : Char) (ss : List Char) :
    split_text d ss = ss.takeWhile (fun c => c != d) ::
      (match ss.dropWhile (fun c => c != d) with
        | [] => []
        | _ :: rest => split_text d rest) := by
  induction ss with
  | nil => rfl
  | cons c cs ih =>
    by_cases hc : c = d
    · subst hc
      simp [split_text, List.takeWhile_cons, List.dropWhile_cons]
    · have hne : (c != d) = true := by simp [hc]
      rw [split_text, if_neg hc, ih]
      simp [List.takeWhile_cons, List.dropWhile_cons, hne]

theorem length_dropWhile_le (p : Char → Bool) (l : List Char) :
    (l.dropWhile p).length ≤ l.length :=
  (List.dropWhile_sublist p).length_le

theorem read_fields_eq (stof : List Char → Option ℚ) (hempty : stof [] = none) :
    ∀ (fuel : Nat) (ss : List Char) (row : List ℚ), ss.length < fuel →
      read_fields stof fuel ss row = row ++ parsed_fields stof (split_text ',' ss) := by
  intro fuel
  induction fuel with
  | zero => intro ss row h; omega
  | succ fuel ih =>
    intro ss row hlen
    cases ss with
    | nil => simp [read_fields, getline, split_text, parsed_fields, hempty]
    | cons c cs =>
      rw [split_text_eq]
      simp only [read_fields, getline, parsed_fields]
      cases hv : stof ((c :: cs).takeWhile (fun c => c != ',')) with
      | none => simp
      | some x =>
        have hdrop := length_dropWhile_le (fun c => c != ',') (c :: cs)
        simp only
        cases hd : (c :: cs).dropWhile (fun c => c != ',') with
        | nil =>
          rw [ih _ _ (by simp at hlen ⊢; omega)]
          simp [split_text, parsed_fields, hempty]
        | cons e rest =>
          rw [hd] at hdrop
          rw [List.drop_one, List.tail_cons, ih _ _ (by simp at hlen hdrop ⊢; omega)]
          simp

theorem accepted_lines_cons (stof : List Char → Option ℚ) (line : List Char)
    (lines : List (List Char)) :
    accepted_lines stof (line :: lines) =
      (if line = [] then [] else (row_of_line stof line).toList) ++ accepted_lines stof lines := by
  unfold accepted_lines
  cases line with
  | nil => simp
  | cons a l =>
    cases h : row_of_line stof (a :: l) <;> simp [List.filter_cons, List.filterMap_cons, h]

theorem read_lines_eq (stof : List Char → Option ℚ) (hempty : stof [] = none) :
    ∀ (fuel : Nat) (file : List Char) (samples : List (List ℚ)) (n : Nat), file.length < fuel →
      (read_lines stof fuel file samples n).1 = samples ++ accepted_rows stof file := by
  intro fuel
  induction fuel with
  | zero => intro file samples n h; omega
  | succ fuel ih =>
    intro file samples n hlen
    cases file with
    | nil => simp [read_lines, getline, accepted_rows, accepted_lines, split_text]
    | cons c cs =>
      have hdrop := length_dropWhile_le (fun c => c != '\n') (c :: cs)
      have hstep : ∀ (acc : List (List ℚ)) (m : Nat),
          (read_lines stof fuel (((c :: cs).dropWhile (fun c => c != '\n')).drop 1) acc m).1 =
            acc ++ accepted_lines stof
              (match (c :: cs).dropWhile (fun c => c != '\n') with
                | [] => []
                | _ :: rest => split_text '\n' rest) := by
        intro acc m
        cases hd : (c :: cs).dropWhile (fun c => c != '\n') with
        | nil =>
          rw [ih _ _ _ (by simp at hlen ⊢; omega)]
          simp [accepted_rows, accepted_lines, split_text]
        | cons e rest =>
          rw [hd] at hdrop
          rw [List.drop_one, List.tail_cons, ih _ _ _ (by simp at hlen hdrop ⊢; omega)]
          simp [accepted_rows]
      rw [accepted_rows, split_text_eq, accepted_lines_cons]
      simp only [read_lines, getline]
      by_cases hline : (c :: cs).takeWhile (fun c => c != '\n') = []
      · rw [if_pos hline, if_pos hline, hstep]
        simp
      · rw [if_neg hline, if_neg hline]
        rw [read_fields_eq stof hempty _ _ _ (Nat.lt_succ_self _)]
        simp only [List.nil_append, row_of_line]
        by_cases h20 :
            (parsed_fields stof
              (split_text ',' ((c :: cs).takeWhile (fun c => c != '\n')))).length = 20
        · simp only [h20, if_true]
          rw [hstep]
          simp
        · simp only [h20, if_false]
          rw [hstep]
          simp

theorem csv_rows_eq (stof : List Char → Option ℚ) (hempty : stof [] = none)
    (content : List Char) : csv_rows stof content = accepted_rows stof content := by
  rw [csv_rows, read_lines_eq stof hempty _ _ _ _ (Nat.lt_succ_self _)]
  simp

/-- Every kept row comes from a counted line: the rows added by the reading
loop are at most as many as the lines it counts. -/
theorem read_lines_length_le (stof : List Char → Option ℚ) :
    ∀ (fuel : Nat) (file : List Char) (samples : List (List ℚ)) (n : Nat),
      (read_lines stof fuel file samples n).1.length + n ≤
        samples.length + (read_lines stof fuel file samples n).2 := by
  intro fuel
  induction fuel with
  | zero => intro file samples n; simp [read_lines]
  | succ fuel ih =>
    intro file samples n
    cases hg : getline '\n' file with
    | none => simp [read_lines, hg]
    | some p =>
      obtain ⟨line, rest⟩ := p
      simp only [read_lines, hg]
      have h1 := ih rest samples (n + 1)
      have h2 := ih rest (samples ++ [read_fields stof (line.length + 1) line []]) (n + 1)
      rw [List.length_append, List.length_singleton] at h2
      split_ifs <;> omega

theorem csv_rows_length_le (stof : List Char → Option ℚ) (content : List Char) :
    (csv_rows stof content).length ≤ line_number stof content := by
  have h := read_lines_length_le stof (content.length + 1) content [] 0
  simpa [csv_rows, line_number] using h

/-! ## Lemmas on the prediction loop of `PredictFromCSV` -/

theorem store_probabilities_apply (a : Nat → ℚ) (i : Nat) (p : Nat → ℚ) (k : Nat) :
    store_probabilities a i p k = if i * 6 ≤ k ∧ k < i * 6 + 6 then p (k - i * 6) else a k := by
  have hr : List.range 6 = [0, 1, 2, 3, 4, 5] := by decide
  simp only [store_probabilities, hr, List.foldl, Function.update_apply]
  split_ifs <;> first | rfl | (exfalso; omega) | (congr 1; omega)

/-- What the loop has done when it returns: it completed some number `n` of
samples, wrote exactly their results, and either ran out of samples or stopped
at sample `n` with the failing status of `Predict`. -/
theorem predict_loop_some (g : Globals) (sp : Nat → Nat → ℚ) (sc : Nat → Int) :
    ∀ (samples : List (List ℚ)) (i : Nat) (acc out : BatchResult),
      predict_loop g sp sc samples i acc = some out →
      ∃ n, n ≤ samples.length ∧ out.sample_count = acc.sample_count ∧
        (∀ m row, m < n → samples[m]? = some row →
          ∃ r, Predict g (data row) 20 (sp (i + m)) (sc (i + m)) = some r ∧ r.status = 0 ∧
            out.predicted_classes (i + m) = r.predicted_class ∧
            ∀ j, j < 6 → out.all_probabilities ((i + m) * 6 + j) = r.probabilities j) ∧
        (∀ m, m < i ∨ i + n ≤ m → out.predicted_classes m = acc.predicted_classes m) ∧
        (∀ m, m < i * 6 ∨ (i + n) * 6 ≤ m →
          out.all_probabilities m = acc.all_probabilities m) ∧
        ((n = samples.length ∧ out.status = 0 ∧
            out.predict_calls = acc.predict_calls ++ samples) ∨
          (∃ row r, samples[n]? = some row ∧
            Predict g (data row) 20 (sp (i + n)) (sc (i + n)) = some r ∧ r.status ≠ 0 ∧
            out.status = r.status ∧
            out.predict_calls = acc.predict_calls ++ samples.take (n + 1))) := by
  intro samples
  induction samples with
  | nil =>
    intro i acc out h
    simp only [predict_loop, Option.some.injEq] at h
    subst h
    refine ⟨0, le_refl _, rfl, ?_, fun _ _ => rfl, fun _ _ => rfl, Or.inl ⟨rfl, rfl, by simp⟩⟩
    intro m row hm; omega
  | cons row0 rest ih =>
    intro i acc out h
    rw [predict_loop] at h
    cases hp : Predict g (data row0) 20 (sp i) (sc i) with
    | none => simp [hp] at h
    | some r =>
      simp only [hp] at h
      by_cases hs : r.status = 0
      · simp only [hs, ne_eq, not_true_eq_false, if_false] at h
        obtain ⟨n, hn, hcount, hres, hfc, hfp, hend⟩ := ih _ _ _ h
        refine ⟨n + 1, by simpa using hn, hcount, ?_, ?_, ?_, ?_⟩
        · intro m row hm hrow
          cases m with
          | zero =>
            simp only [List.getElem?_cons_zero, Option.some.injEq] at hrow
            subst hrow
            refine ⟨r, hp, hs, ?_, ?_⟩
            · rw [Nat.add_zero, hfc i (Or.inl (Nat.lt_succ_self i))]
              simp
            · intro j hj
              rw [Nat.add_zero, hfp _ (Or.inl (by omega))]
              simp only [store_probabilities_apply]
              rw [if_pos (by omega)]
              congr 1
              omega
          | succ m =>
            simp only [List.getElem?_cons_succ] at hrow
            have := hres m row (by omega) hrow
            rw [show i + 1 + m = i + (m + 1) by omega] at this
            exact this
        · intro m hm
          rw [hfc m (by omega)]
          simp only
          rw [Function.update_noteq (by omega)]
        · intro m hm
          rw [hfp m (by omega)]
          simp only [store_probabilities_apply]
          rw [if_neg (by omega)]
        · rcases hend with ⟨hlen, hst, hcalls⟩ | ⟨row, rn, hrow, hpn, hsn, hst, hcalls⟩
          · exact Or.inl ⟨by simp [hlen], hst, by simp [hcalls]⟩
          · refine Or.inr ⟨row, rn, by simpa using hrow, ?_, hsn, hst, by simp [hcalls]⟩
            rw [show i + (n + 1) = i + 1 + n by omega]
            exact hpn
      · simp only [ne_eq, hs, not_false_eq_true, if_true, Option.some.injEq] at h
        subst h
        refine ⟨0, Nat.zero_le _, rfl, ?_, fun _ _ => rfl, fun _ _ => rfl,
          Or.inr ⟨row0, r, by simp, hp, hs, rfl, by simp⟩⟩
        intro m row hm; omega

/-- The loop returns when `Predict` returns on every sample up to and including
the first one on which it fails. -/
theorem predict_loop_stops (g : Globals) (sp : Nat → Nat → ℚ) (sc : Nat → Int) :
    ∀ (samples : List (List ℚ)) (k i : Nat) (acc : BatchResult) (row : List ℚ)
      (rk : PredictResult),
      samples[k]? = some row →
      (∀ m row1, m < k → samples[m]? = some row1 →
        ∃ r, Predict g (data row1) 20 (sp (i + m)) (sc (i + m)) = some r ∧ r.status = 0) →
      Predict g (data row) 20 (sp (i + k)) (sc (i + k)) = some rk → rk.status ≠ 0 →
      ∃ out, predict_loop g sp sc samples i acc = some out := by
  intro samples
  induction samples with
  | nil => intro k i acc row rk hk; simp at hk
  | cons row0 rest ih =>
    intro k i acc row rk hk hbefore hp hs
    cases k with
    | zero =>
      simp only [List.getElem?_cons_zero, Option.some.injEq] at hk
      subst hk
      rw [Nat.add_zero] at hp
      rw [predict_loop]
      simp only [hp, ne_eq, hs, not_false_eq_true, if_true]
      exact ⟨_, rfl⟩
    | succ k =>
      simp only [List.getElem?_cons_succ] at hk
      obtain ⟨r0, hp0, hs0⟩ := hbefore 0 row0 (by omega) (by simp)
      rw [Nat.add_zero] at hp0
      rw [predict_loop]
      simp only [hp0, hs0, ne_eq, not_true_eq_false, if_false]
      apply ih k (i + 1) _ row rk hk
      · intro m row1 hm hrow1
        have := hbefore (m + 1) row1 (by omega) (by simpa using hrow1)
        rw [show i + 1 + m = i + (m + 1) by omega]
        exact this
      · rw [show i + 1 + k = i + (k + 1) by omega]
        exact hp
      · exact hs

/-- The loop returns status 0 when `Predict` succeeds on every sample. -/
theorem predict_loop_completes (g : Globals) (sp : Nat → Nat → ℚ) (sc : Nat → Int) :
    ∀ (samples : List (List ℚ)) (i : Nat) (acc : BatchResult),
      (∀ m row, samples[m]? = some row →
        ∃ r, Predict g (data row) 20 (sp (i + m)) (sc (i + m)) = some r ∧ r.status = 0) →
      ∃ out, predict_loop g sp sc samples i acc = some out ∧ out.status = 0 ∧
        out.sample_count = acc.sample_count := by
  intro samples
  induction samples with
  | nil => intro i acc _; exact ⟨_, rfl, rfl, rfl⟩
  | cons row0 rest ih =>
    intro i acc hall
    obtain ⟨r0, hp0, hs0⟩ := hall 0 row0 (by simp)
    rw [Nat.add_zero] at hp0
    rw [predict_loop]
    simp only [hp0, hs0, ne_eq, not_true_eq_false, if_false]
    obtain ⟨out, hout, hst, hcount⟩ := ih (i + 1)
      { acc with
        predicted_classes := Function.update acc.predicted_classes i r0.predicted_class,
        all_probabilities := store_probabilities acc.all_probabilities i r0.probabilities,
        predict_calls := acc.predict_calls ++ [row0] }
      (by
        intro m row hrow
        have := hall (m + 1) row (by simpa using hrow)
        rw [show i + 1 + m = i + (m + 1) by omega]
        exact this)
    exact ⟨out, hout, hst, hcount⟩

/-! ## Lemmas: the results of `Predict` do not depend on the output cells -/

theorem argmax_loop_max (output_data p1 p2 : Nat → ℚ) (n : Nat) :
    ((List.range n).foldl (argmax_step output_data)
        { probabilities := p1, max_prob := output_data 0, max_idx := 0 }).max_idx =
      ((List.range n).foldl (argmax_step output_data)
        { probabilities := p2, max_prob := output_data 0, max_idx := 0 }).max_idx ∧
    ((List.range n).foldl (argmax_step output_data)
        { probabilities := p1, max_prob := output_data 0, max_idx := 0 }).max_prob =
      ((List.range n).foldl (argmax_step output_data)
        { probabilities := p2, max_prob := output_data 0, max_idx := 0 }).max_prob := by
  induction n with
  | zero => exact ⟨rfl, rfl⟩
  | succ n ih =>
    obtain ⟨hi, hp⟩ := ih
    simp only [List.range_succ, List.foldl_append, List.foldl_cons, List.foldl_nil]
    generalize (List.range n).foldl (argmax_step output_data)
      { probabilities := p1, max_prob := output_data 0, max_idx := 0 } = s1 at *
    generalize (List.range n).foldl (argmax_step output_data)
      { probabilities := p2, max_prob := output_data 0, max_idx := 0 } = s2 at *
    unfold argmax_step
    rw [hp]
    split_ifs
    · exact ⟨rfl, rfl⟩
    · exact ⟨hi, rfl⟩

theorem Predict_cells_irrelevant (g : Globals) (features : Nat → ℚ) (feature_count : Int)
    (p1 : Nat → ℚ) (c1 : Int) (r1 : PredictResult)
    (h : Predict g features feature_count p1 c1 = some r1) (h0 : r1.status = 0)
    (p2 : Nat → ℚ) (c2 : Int) :
    ∃ r2, Predict g features feature_count p2 c2 = some r2 ∧ r2.status = 0 ∧
      r2.predicted_class = r1.predicted_class ∧
      ∀ j, j < 6 → r2.probabilities j = r1.probabilities j := by
  obtain ⟨hi, hf, x, session, output_data, hx, hs, hr, rfl⟩ :=
    Predict_eq_some_zero g features feature_count p1 c1 r1 h h0
  refine ⟨_, by simp only [Predict, hi, hf, hx, hs, hr]; rfl, rfl, ?_, ?_⟩
  · exact (argmax_loop_max output_data p2 p1 6).1
  · intro j hj
    have h1 := (argmax_loop_invariant output_data p1 6).2.1 j hj
    have h2 := (argmax_loop_invariant output_data p2 6).2.1 j hj
    simp only at h1 h2 ⊢
    rw [h1, h2]

/-! ## Lemmas on `Initialize` -/

/-- The part of `Initialize` after the length check (lines 129-164), as a
function of the globals at that point. -/
theorem Initialize_after_validation (w : World) (g : Globals)
    (model_path scaler_path label_path : String) (content : List Char) (mean scale : List ℚ)
    (hopen : w.open_file scaler_path = some content)
    (hmean : parse_json_array w.stod content "mean".toList = some mean)
    (hscale : parse_json_array w.stod content "scale".toList = some scale)
    (hm : mean.length = 20) (hs : scale.length = 20) :
    ((Initialize w g model_path scaler_path label_path).1 = 0 ∨
      (Initialize w g model_path scaler_path label_path).1 = -3 ∨
      (Initialize w g model_path scaler_path label_path).1 = -999) ∧
    (Initialize w g model_path scaler_path label_path).2.g_mean = mean ∧
    (Initialize w g model_path scaler_path label_path).2.g_scale = scale ∧
    (w.open_file label_path = none →
      (Initialize w g model_path scaler_path label_path).1 = -3) := by
  unfold Initialize
  simp only [hopen, hmean, hscale, hm, hs, ne_eq, not_true_eq_false, or_self, if_false]
  cases w.open_file label_path with
  | none => simp
  | some label_content =>
    simp only
    cases parse_labels label_content (List.range 6) (resize g.g_labels 6) with
    | error labels => simp
    | ok labels =>
      simp only
      split_ifs
      all_goals (rcases hcs : w.create_session model_path with _ | session <;> simp [hcs])

/-- A call of `Initialize` that returns 0 went through every stage, and it is
the only kind of call that changes `g_initialized`. -/
theorem Initialize_flag (w : World) (g : Globals) (model_path scaler_path label_path : String) :
    ((Initialize w g model_path scaler_path label_path).1 = 0 →
      (Initialize w g model_path scaler_path label_path).2.g_initialized = true ∧
      ∃ content mean scale label_content session,
        w.open_file scaler_path = some content ∧
        parse_json_array w.stod content "mean".toList = some mean ∧
        parse_json_array w.stod content "scale".toList = some scale ∧
        mean.length = 20 ∧ scale.length = 20 ∧
        w.open_file label_path = some label_content ∧
        w.create_env = true ∧ w.create_session model_path = some session) ∧
    ((Initialize w g model_path scaler_path label_path).1 ≠ 0 →
      (Initialize w g model_path scaler_path label_path).2.g_initialized = g.g_initialized) := by
  unfold Initialize
  rcases h1 : w.open_file scaler_path with _ | content
  · simp
  dsimp only
  rcases h2 : parse_json_array w.stod content "mean".toList with _ | mean
  · simp
  dsimp only
  rcases h3 : parse_json_array w.stod content "scale".toList with _ | scale
  · simp
  dsimp only
  by_cases hlen : mean.length ≠ 20 ∨ scale.length ≠ 20
  · simp [hlen]
  rw [if_neg hlen]
  rcases h4 : w.open_file label_path with _ | label_content
  · simp
  dsimp only
  rcases h5 : parse_labels label_content (List.range 6) (resize g.g_labels 6) with labels | labels
  · simp
  dsimp only
  by_cases h6 : labels.length ≠ 6
  · simp [h6]
  rw [if_neg h6]
  by_cases h7 : (!w.create_env) = true
  · simp [h7]
  rw [if_neg h7]
  rcases h8 : w.create_session model_path with _ | session
  · simp
  · simp only [ne_eq, not_or, not_not] at hlen
    simp only [Bool.not_eq_true', Bool.not_eq_false] at h7
    exact ⟨fun _ => ⟨rfl, content, mean, scale, label_content, session, rfl, h2, h3, hlen.1,
      hlen.2, rfl, h7, rfl⟩, fun h => absurd rfl h⟩

/-- The branch of line 126: the arrays parsed, one of them has the wrong
length, and both are already stored in the globals. -/
theorem Initialize_wrong_length (w : World) (g : Globals)
    (model_path scaler_path label_path : String) (content : List Char) (mean scale : List ℚ)
    (hopen : w.open_file scaler_path = some content)
    (hmean : parse_json_array w.stod content "mean".toList = some mean)
    (hscale : parse_json_array w.stod content "scale".toList = some scale)
    (hbad : mean.length ≠ 20 ∨ scale.length ≠ 20) :
    Initialize w g model_path scaler_path label_path =
      (-2, { g with g_mean := mean, g_scale := scale }) := by
  unfold Initialize
  simp only [hopen, hmean, hscale]
  rw [if_pos hbad]

/-- Status -2 is returned by the length check and nowhere else. -/
theorem Initialize_eq_minus_two (w : World) (g : Globals)
    (model_path scaler_path label_path : String)
    (h : (Initialize w g model_path scaler_path label_path).1 = -2) :
    ∃ content mean scale, w.open_file scaler_path = some content ∧
      parse_json_array w.stod content "mean".toList = some mean ∧
      parse_json_array w.stod content "scale".toList = some scale ∧
      (mean.length ≠ 20 ∨ scale.length ≠ 20) := by
  rcases h1 : w.open_file scaler_path with _ | content
  · simp [Initialize, h1] at h
  rcases h2 : parse_json_array w.stod content "mean".toList with _ | mean
  · simp only [Initialize, h1, h2] at h
    exact absurd h (by decide)
  rcases h3 : parse_json_array w.stod content "scale".toList with _ | scale
  · simp only [Initialize, h1, h2, h3] at h
    exact absurd h (by decide)
  by_cases hlen : mean.length ≠ 20 ∨ scale.length ≠ 20
  · exact ⟨content, mean, scale, rfl, h2, h3, hlen⟩
  · simp only [ne_eq, not_or, not_not] at hlen
    rcases (Initialize_after_validation w g model_path scaler_path label_path content mean scale
      h1 h2 h3 hlen.1 hlen.2).1 with h0 | h0 | h0
    all_goals (rw [h0] at h; exact absurd h (by decide))

/-! ## Single-sample prediction: claims C1 to C3 -/

/-- C1: whenever `Predict` succeeds (status 0), the engine returned an output
for the standardized features, the six values of that output are copied
unchanged into `probabilities`, and `predicted_class` is the smallest index in
`0..5` whose value is the maximum of the six (strictly larger than every earlier
value, at least as large as every value). -/
theorem Predict_success_first_max (g : Globals) (features : Nat → ℚ) (feature_count : Int)
    (probabilities : Nat → ℚ) (predicted_class : Int) (r : PredictResult)
    (h : Predict g features feature_count probabilities predicted_class = some r)
    (h0 : r.status = 0) :
    ∃ x session output_data, scaled_features g features = some x ∧
      g.g_session = some session ∧ session.Run x = some output_data ∧
      (∀ i, i < 6 → r.probabilities i = output_data i) ∧
      ∃ c : Nat, r.predicted_class = (c : Int) ∧ first_max_index output_data c := by
  obtain ⟨_, _, x, session, output_data, hx, hs, hr, rfl⟩ :=
    Predict_eq_some_zero g features feature_count probabilities predicted_class r h h0
  obtain ⟨⟨c, hc, _, hcn, hle, hlt⟩, hcopy, _⟩ :=
    argmax_loop_invariant output_data probabilities 6
  refine ⟨x, session, output_data, hx, hs, hr, hcopy, c, hc, ?_, hle, hlt⟩
  rcases hcn with h | h
  · omega
  · exact h

/-- The two examples of the specification: the output
`[0.1, 0.7, 0.05, 0.05, 0.05, 0.05]` gives class 1 and the tie
`[0.5, 0.5, 0, 0, 0, 0]` gives class 0. -/
theorem Predict_success_first_max_witness :
    (∃ r, Predict (example_globals (table_session [1/10, 7/10, 1/20, 1/20, 1/20, 1/20]))
        (fun _ => 0) 20 (fun _ => 0) 0 = some r ∧ r.status = 0 ∧ r.predicted_class = 1 ∧
      ∃ x session output_data,
        scaled_features (example_globals (table_session [1/10, 7/10, 1/20, 1/20, 1/20, 1/20]))
          (fun _ => 0) = some x ∧
        (example_globals (table_session [1/10, 7/10, 1/20, 1/20, 1/20, 1/20])).g_session
          = some session ∧
        session.Run x = some output_data ∧
        (∀ i, i < 6 → r.probabilities i = output_data i) ∧
        ∃ c : Nat, r.predicted_class = (c : Int) ∧ first_max_index output_data c) ∧
    (∃ r, Predict (example_globals (table_session [1/2, 1/2, 0, 0, 0, 0]))
        (fun _ => 0) 20 (fun _ => 0) 0 = some r ∧ r.status = 0 ∧ r.predicted_class = 0 ∧
      ∃ x session output_data,
        scaled_features (example_globals (table_session [1/2, 1/2, 0, 0, 0, 0]))
          (fun _ => 0) = some x ∧
        (example_globals (table_session [1/2, 1/2, 0, 0, 0, 0])).g_session = some session ∧
        session.Run x = some output_data ∧
        (∀ i, i < 6 → r.probabilities i = output_data i) ∧
        ∃ c : Nat, r.predicted_class = (c : Int) ∧ first_max_index output_data c) :=
  ⟨⟨_, rfl, rfl, by with_unfolding_all decide,
      Predict_success_first_max _ (fun _ => 0) 20 (fun _ => 0) 0 _ rfl rfl⟩,
    ⟨_, rfl, rfl, by with_unfolding_all decide,
      Predict_success_first_max _ (fun _ => 0) 20 (fun _ => 0) 0 _ rfl rfl⟩⟩

/-- C2: when the session is not initialized, `Predict` returns -1, leaves the
`probabilities` buffer and `predicted_class` exactly as they were, and does not
run the engine, whatever the other arguments are. -/
theorem Predict_not_initialized (g : Globals) (features : Nat → ℚ) (feature_count : Int)
    (probabilities : Nat → ℚ) (predicted_class : Int) (h : g.g_initialized = false) :
    Predict g features feature_count probabilities predicted_class =
      some { status := -1, probabilities := probabilities, predicted_class := predicted_class,
             engine_inputs := [] } := by
  simp [Predict, h]

/-- C2 at the globals of program start, with 20 features announced. -/
theorem Predict_not_initialized_witness :
    Globals.initial.g_initialized = false ∧
    Predict Globals.initial (fun _ => 1) 20 (fun _ => 7) 3 =
      some { status := -1, probabilities := fun _ => 7, predicted_class := 3,
             engine_inputs := [] } :=
  ⟨rfl, Predict_not_initialized Globals.initial (fun _ => 1) 20 (fun _ => 7) 3 rfl⟩

/-- C3: on an initialized session, every `feature_count` other than 20 makes
`Predict` return -2 with the output cells untouched and the engine not run;
the code differs from the one an uninitialized session returns. -/
theorem Predict_wrong_feature_count (g : Globals) (features : Nat → ℚ) (feature_count : Int)
    (probabilities : Nat → ℚ) (predicted_class : Int) (h : g.g_initialized = true)
    (hf : feature_count ≠ 20) :
    ∃ r, Predict g features feature_count probabilities predicted_class = some r ∧
      r.status = -2 ∧ r.probabilities = probabilities ∧ r.predicted_class = predicted_class ∧
      r.engine_inputs = [] ∧
      ∀ g0 r0, g0.g_initialized = false →
        Predict g0 features feature_count probabilities predicted_class = some r0 →
        r.status ≠ r0.status := by
  refine ⟨{ status := -2, probabilities := probabilities, predicted_class := predicted_class,
            engine_inputs := [] }, by simp [Predict, h, hf], rfl, rfl, rfl, rfl, ?_⟩
  intro g0 r0 hg0 hr0
  simp [Predict, hg0] at hr0
  subst hr0
  show (-2 : Int) ≠ -1
  decide

/-- C3 on an initialized session asked to predict from 19 features. -/
theorem Predict_wrong_feature_count_witness :
    (example_globals (table_session [])).g_initialized = true ∧ (19 : Int) ≠ 20 ∧
    ∃ r, Predict (example_globals (table_session [])) (fun _ => 1) 19 (fun _ => 7) 3 = some r ∧
      r.status = -2 ∧ r.probabilities = (fun _ => 7) ∧ r.predicted_class = 3 ∧
      r.engine_inputs = [] ∧
      ∀ g0 r0, g0.g_initialized = false →
        Predict g0 (fun _ => 1) 19 (fun _ => 7) 3 = some r0 → r.status ≠ r0.status :=
  ⟨rfl, by decide,
    Predict_wrong_feature_count (example_globals (table_session [])) (fun _ => 1) 19
      (fun _ => 7) 3 rfl (by decide)⟩

/-! ## Batch prediction: claims C4 to C7 -/

/-- C4: for every file content the reading loop ends and the samples it keeps
are, in file order, exactly the parsed fields of those non-blank lines for
which exactly 20 comma-separated fields parse before the first unparsable one
(or the end of the line); blank lines and lines with any other count
contribute nothing, and neither stops the loop. The same holds for
`read_csv` on a file that opens. The library fact used is that `stof` throws
on the empty string. -/
theorem csv_rows_accepts_exactly (w : World) (hempty : w.stof [] = none) (content : List Char) :
    csv_rows w.stof content = accepted_rows w.stof content ∧
    ∀ filename, w.open_file filename = some content →
      read_csv w filename = accepted_rows w.stof content := by
  refine ⟨csv_rows_eq w.stof hempty content, ?_⟩
  intro filename hopen
  rw [read_csv, hopen]
  exact csv_rows_eq w.stof hempty content

/-- The example of the specification: a file with one row of 20 numeric fields,
one blank line and one row of 19 fields yields exactly one sample, the first
row. -/
theorem csv_rows_accepts_exactly_witness :
    example_world.stof [] = none ∧
    (csv_rows example_world.stof example_csv = accepted_rows example_world.stof example_csv ∧
      ∀ filename, example_world.open_file filename = some example_csv →
        read_csv example_world filename = accepted_rows example_world.stof example_csv) ∧
    accepted_rows example_world.stof example_csv =
      [[1, 2, 3, 4, 5, 6, 7, 8, 9, 10, 11, 12, 13, 14, 15, 16, 17, 18, 19, 20]] ∧
    (read_csv example_world "batch.csv").length = 1 :=
  ⟨by decide, csv_rows_accepts_exactly example_world (by decide) example_csv,
    by with_unfolding_all decide, by decide⟩

/-- When `PredictFromCSV` returns 0 on an initialized session, the file opened,
`Predict` was called on the accepted rows in order, `sample_count` holds
`samples.size()` converted to `int`, and the result cells of every accepted row
hold what `Predict` returns for it, whatever its output cells held before. -/
theorem PredictFromCSV_status_zero (w : World) (g : Globals) (csv_path : String)
    (predicted_classes : Nat → Int) (all_probabilities : Nat → ℚ) (sample_count : Int)
    (stack_probs : Nat → Nat → ℚ) (stack_class : Nat → Int) (out : BatchResult)
    (hinit : g.g_initialized = true)
    (h : PredictFromCSV w g csv_path predicted_classes all_probabilities sample_count
      stack_probs stack_class = some out)
    (h0 : out.status = 0) :
    ∃ content, w.open_file csv_path = some content ∧
      out.sample_count = size_to_int (csv_rows w.stof content).length ∧
      ((csv_rows w.stof content).length < 2 ^ 31 →
        out.sample_count = ((csv_rows w.stof content).length : Int)) ∧
      out.predict_calls = csv_rows w.stof content ∧
      ∀ i row, (csv_rows w.stof content)[i]? = some row →
        ∀ (probabilities : Nat → ℚ) (predicted_class : Int),
          ∃ r, Predict g (data row) 20 probabilities predicted_class = some r ∧ r.status = 0 ∧
            out.predicted_classes i = r.predicted_class ∧
            ∀ j, j < 6 → out.all_probabilities (6 * i + j) = r.probabilities j := by
  unfold PredictFromCSV at h
  simp only [hinit, Bool.not_true, Bool.false_eq_true, if_false] at h
  cases hopen : w.open_file csv_path with
  | none =>
    simp only [hopen, Option.some.injEq] at h
    subst h
    simp at h0
  | some content =>
    simp only [hopen] at h
    by_cases hemp : (csv_rows w.stof content).isEmpty = true
    · simp only [hemp, if_true, Option.some.injEq] at h
      subst h
      simp at h0
    · simp only [hemp, Bool.false_eq_true, if_false] at h
      obtain ⟨n, hn, hcount, hres, _, _, hend⟩ := predict_loop_some _ _ _ _ _ _ _ h
      have hfull : n = (csv_rows w.stof content).length ∧
          out.predict_calls = csv_rows w.stof content := by
        rcases hend with ⟨hlen, _, hcalls⟩ | ⟨_, r, _, _, hs, hst, _⟩
        · exact ⟨hlen, by simpa using hcalls⟩
        · exact absurd (hst ▸ h0) hs
      refine ⟨content, rfl, hcount, ?_, hfull.2, ?_⟩
      · intro hsmall
        rw [hcount]
        simp only [size_to_int]
        have h1 : (csv_rows w.stof content).length % 2 ^ 32 =
            (csv_rows w.stof content).length := Nat.mod_eq_of_lt (by omega)
        rw [h1, if_pos hsmall]
      · intro i row hrow probabilities predicted_class
        have hi : i < n := by
          rw [hfull.1]
          exact (List.getElem?_eq_some_iff.mp hrow).1
        obtain ⟨r, hp, hs, hc, hprobs⟩ := hres i row hi hrow
        rw [Nat.zero_add] at hp hc
        obtain ⟨r2, hp2, hs2, hc2, hprobs2⟩ :=
          Predict_cells_irrelevant g _ _ _ _ r hp hs probabilities predicted_class
        refine ⟨r2, hp2, hs2, by rw [hc, hc2], ?_⟩
        intro j hj
        have := hprobs j hj
        rw [Nat.zero_add, Nat.mul_comm] at this
        rw [this, hprobs2 j hj]

/-- C5: when `PredictFromCSV` returns 0 on an initialized session, in a run in
which the `int` counter `line_number` does not overflow (fewer than `2 ^ 31`
lines read), the file opened, `Predict` was called on the accepted rows in
order, `sample_count` equals the number `n` of accepted rows, and for every
`i < n` the cells `predicted_classes[i]` and `all_probabilities[6*i .. 6*i+5]`
hold the class and the six probabilities that `Predict` returns for the `i`-th
accepted row, whatever its output cells held before. -/
theorem PredictFromCSV_success (w : World) (g : Globals) (csv_path : String)
    (predicted_classes : Nat → Int) (all_probabilities : Nat → ℚ) (sample_count : Int)
    (stack_probs : Nat → Nat → ℚ) (stack_class : Nat → Int) (out : BatchResult)
    (hinit : g.g_initialized = true)
    (hcounter : ∀ content, w.open_file csv_path = some content →
      line_number w.stof content < 2 ^ 31)
    (h : PredictFromCSV w g csv_path predicted_classes all_probabilities sample_count
      stack_probs stack_class = some out)
    (h0 : out.status = 0) :
    ∃ content, w.open_file csv_path = some content ∧
      out.sample_count = ((csv_rows w.stof content).length : Int) ∧
      out.predict_calls = csv_rows w.stof content ∧
      ∀ i row, (csv_rows w.stof content)[i]? = some row →
        ∀ (probabilities : Nat → ℚ) (predicted_class : Int),
          ∃ r, Predict g (data row) 20 probabilities predicted_class = some r ∧ r.status = 0 ∧
            out.predicted_classes i = r.predicted_class ∧
            ∀ j, j < 6 → out.all_probabilities (6 * i + j) = r.probabilities j := by
  obtain ⟨content, hopen, _, hsmall, hcalls, hcells⟩ :=
    PredictFromCSV_status_zero w g csv_path predicted_classes all_probabilities sample_count
      stack_probs stack_class out hinit h h0
  have hlines := hcounter content hopen
  have hrows := csv_rows_length_le w.stof content
  exact ⟨content, hopen, hsmall (by omega), hcalls, hcells⟩

/-- C5 on the example file: three lines read, one accepted row, class 5 for the
echoing engine. -/
theorem PredictFromCSV_success_witness :
    ∃ out, (example_globals picky_session).g_initialized = true ∧
      line_number example_world.stof example_csv = 3 ∧
      PredictFromCSV example_world (example_globals picky_session) "batch.csv"
        (fun _ => 0) (fun _ => 0) 0 (fun _ _ => 0) (fun _ => 0) = some out ∧
      out.status = 0 ∧ out.sample_count = 1 ∧ out.predicted_classes 0 = 5 ∧
      ∃ content, example_world.open_file "batch.csv" = some content ∧
        out.sample_count = ((csv_rows example_world.stof content).length : Int) ∧
        out.predict_calls = csv_rows example_world.stof content ∧
        ∀ i row, (csv_rows example_world.stof content)[i]? = some row →
          ∀ (probabilities : Nat → ℚ) (predicted_class : Int),
            ∃ r, Predict (example_globals picky_session) (data row) 20 probabilities
                predicted_class = some r ∧ r.status = 0 ∧
              out.predicted_classes i = r.predicted_class ∧
              ∀ j, j < 6 → out.all_probabilities (6 * i + j) = r.probabilities j :=
  ⟨_, rfl, by with_unfolding_all decide, by with_unfolding_all rfl,
    by with_unfolding_all decide, by with_unfolding_all decide, by with_unfolding_all decide,
    PredictFromCSV_success example_world (example_globals picky_session) "batch.csv"
      (fun _ => 0) (fun _ => 0) 0 (fun _ _ => 0) (fun _ => 0) _ rfl
      (by
        intro content hopen
        have hc : example_csv = content := Option.some.inj hopen
        subst hc
        with_unfolding_all decide)
      (by with_unfolding_all rfl) (by with_unfolding_all decide)⟩

/-- C6: on an initialized session, a file that cannot be opened or that yields
no accepted row makes `PredictFromCSV` return -2 with `sample_count` set to 0,
no call of `Predict`, and `predicted_classes` and `all_probabilities` as they
were. -/
theorem PredictFromCSV_no_usable_data (w : World) (g : Globals) (csv_path : String)
    (predicted_classes : Nat → Int) (all_probabilities : Nat → ℚ) (sample_count : Int)
    (stack_probs : Nat → Nat → ℚ) (stack_class : Nat → Int)
    (hinit : g.g_initialized = true)
    (h : w.open_file csv_path = none ∨
      ∃ content, w.open_file csv_path = some content ∧ csv_rows w.stof content = []) :
    PredictFromCSV w g csv_path predicted_classes all_probabilities sample_count
        stack_probs stack_class =
      some { status := -2, predicted_classes := predicted_classes,
             all_probabilities := all_probabilities, sample_count := 0,
             predict_calls := [] } := by
  unfold PredictFromCSV
  rcases h with hnone | ⟨content, hopen, hrows⟩
  · simp [hinit, hnone]
  · simp [hinit, hopen, hrows]

/-- C6 on a missing file and on a file with two blank lines and a short row. -/
theorem PredictFromCSV_no_usable_data_witness :
    (example_globals picky_session).g_initialized = true ∧
    example_world.open_file "missing.csv" = none ∧
    PredictFromCSV example_world (example_globals picky_session) "missing.csv"
        (fun _ => 4) (fun _ => 1 / 2) 9 (fun _ _ => 0) (fun _ => 0) =
      some { status := -2, predicted_classes := fun _ => 4,
             all_probabilities := fun _ => 1 / 2, sample_count := 0, predict_calls := [] } ∧
    (example_world.open_file "blank.csv" = some example_csv_blank ∧
      csv_rows example_world.stof example_csv_blank = []) ∧
    PredictFromCSV example_world (example_globals picky_session) "blank.csv"
        (fun _ => 4) (fun _ => 1 / 2) 9 (fun _ _ => 0) (fun _ => 0) =
      some { status := -2, predicted_classes := fun _ => 4,
             all_probabilities := fun _ => 1 / 2, sample_count := 0, predict_calls := [] } :=
  ⟨rfl, by decide,
    PredictFromCSV_no_usable_data example_world (example_globals picky_session) "missing.csv"
      (fun _ => 4) (fun _ => 1 / 2) 9 (fun _ _ => 0) (fun _ => 0) rfl (Or.inl (by decide)),
    ⟨by decide, by decide⟩,
    PredictFromCSV_no_usable_data example_world (example_globals picky_session) "blank.csv"
      (fun _ => 4) (fun _ => 1 / 2) 9 (fun _ _ => 0) (fun _ => 0) rfl
      (Or.inr ⟨example_csv_blank, by decide, by decide⟩)⟩

/-- C7: when `Predict` succeeds on the accepted samples `0..k-1` and returns the
non-zero status `s` on sample `k`, `PredictFromCSV` returns `s`; `Predict` was
called on the samples `0..k` and on no later one; `predicted_classes[i]` for
`i >= k` and `all_probabilities[j]` for `j >= 6*k` are as they were before the
call; and for `i < k` the cells of sample `i` hold the class and the six
probabilities `Predict` returns for it. -/
theorem PredictFromCSV_first_failure (w : World) (g : Globals) (csv_path : String)
    (predicted_classes : Nat → Int) (all_probabilities : Nat → ℚ) (sample_count : Int)
    (stack_probs : Nat → Nat → ℚ) (stack_class : Nat → Int) (content : List Char)
    (k : Nat) (row : List ℚ) (rk : PredictResult)
    (hinit : g.g_initialized = true)
    (hopen : w.open_file csv_path = some content)
    (hk : (csv_rows w.stof content)[k]? = some row)
    (hbefore : ∀ m row1, m < k → (csv_rows w.stof content)[m]? = some row1 →
      ∃ r, Predict g (data row1) 20 (stack_probs m) (stack_class m) = some r ∧ r.status = 0)
    (hfail : Predict g (data row) 20 (stack_probs k) (stack_class k) = some rk)
    (hs : rk.status ≠ 0) :
    ∃ out, PredictFromCSV w g csv_path predicted_classes all_probabilities sample_count
        stack_probs stack_class = some out ∧
      out.status = rk.status ∧
      out.predict_calls = (csv_rows w.stof content).take (k + 1) ∧
      (∀ i, k ≤ i → out.predicted_classes i = predicted_classes i) ∧
      (∀ j, 6 * k ≤ j → out.all_probabilities j = all_probabilities j) ∧
      ∀ i row1, i < k → (csv_rows w.stof content)[i]? = some row1 →
        ∀ (probabilities : Nat → ℚ) (predicted_class : Int),
          ∃ r, Predict g (data row1) 20 probabilities predicted_class = some r ∧
            r.status = 0 ∧ out.predicted_classes i = r.predicted_class ∧
            ∀ j, j < 6 → out.all_probabilities (6 * i + j) = r.probabilities j := by
  have hne : (csv_rows w.stof content).isEmpty = false := by
    cases hc : csv_rows w.stof content with
    | nil => rw [hc] at hk; simp at hk
    | cons a l => rfl
  have hloop : PredictFromCSV w g csv_path predicted_classes all_probabilities sample_count
      stack_probs stack_class =
      predict_loop g stack_probs stack_class (csv_rows w.stof content) 0
        { status := 0, predicted_classes := predicted_classes,
          all_probabilities := all_probabilities,
          sample_count := size_to_int (csv_rows w.stof content).length, predict_calls := [] } := by
    unfold PredictFromCSV
    simp [hinit, hopen, hne]
  obtain ⟨out, hout⟩ := predict_loop_stops g stack_probs stack_class (csv_rows w.stof content) k 0
    { status := 0, predicted_classes := predicted_classes,
      all_probabilities := all_probabilities,
      sample_count := size_to_int (csv_rows w.stof content).length, predict_calls := [] }
    row rk hk
    (by intro m row1 hm hrow1; rw [Nat.zero_add]; exact hbefore m row1 hm hrow1)
    (by rw [Nat.zero_add]; exact hfail) hs
  obtain ⟨n, hn, _, hres, hfc, hfp, hend⟩ := predict_loop_some _ _ _ _ _ _ _ hout
  have hnk : n = k := by
    rcases Nat.lt_trichotomy n k with hlt | heq | hgt
    · rcases hend with ⟨hlen, _, _⟩ | ⟨rown, rn, hrown, hpn, hsn, _, _⟩
      · have := (List.getElem?_eq_some_iff.mp hk).1
        omega
      · obtain ⟨r, hp, hr0⟩ := hbefore n rown hlt hrown
        rw [Nat.zero_add] at hpn
        rw [hp] at hpn
        cases hpn
        exact absurd hr0 hsn
    · exact heq
    · obtain ⟨r, hp, hr0, _, _⟩ := hres k row hgt hk
      rw [Nat.zero_add] at hp
      rw [hfail] at hp
      cases hp
      exact absurd hr0 hs
  subst hnk
  refine ⟨out, by rw [hloop, hout], ?_, ?_, ?_, ?_, ?_⟩
  · rcases hend with ⟨hlen, _, _⟩ | ⟨rown, rn, hrown, hpn, _, hst, _⟩
    · have := (List.getElem?_eq_some_iff.mp hk).1
      omega
    · rw [hk] at hrown
      cases hrown
      rw [Nat.zero_add, hfail] at hpn
      cases hpn
      exact hst
  · rcases hend with ⟨hlen, _, _⟩ | ⟨_, _, _, _, _, _, hcalls⟩
    · have := (List.getElem?_eq_some_iff.mp hk).1
      omega
    · simpa using hcalls
  · intro i hi
    exact hfc i (Or.inr (by omega))
  · intro j hj
    exact hfp j (Or.inr (by omega))
  · intro i row1 hi hrow1 probabilities predicted_class
    obtain ⟨r, hp, hr0, hc, hprobs⟩ := hres i row1 hi hrow1
    rw [Nat.zero_add] at hp hc
    obtain ⟨r2, hp2, hs2, hc2, hprobs2⟩ :=
      Predict_cells_irrelevant g _ _ _ _ r hp hr0 probabilities predicted_class
    refine ⟨r2, hp2, hs2, by rw [hc, hc2], ?_⟩
    intro j hj
    have := hprobs j hj
    rw [Nat.zero_add, Nat.mul_comm] at this
    rw [this, hprobs2 j hj]

/-- C7 on a file of three rows whose second row makes the engine throw: the
batch returns -999 after two calls of `Predict`, the cells of sample 0 hold its
results and every later cell is as it was. -/
theorem PredictFromCSV_first_failure_witness :
    (example_globals picky_session).g_initialized = true ∧
    example_world.open_file "three.csv" = some example_csv_three ∧
    (csv_rows example_world.stof example_csv_three)[1]? =
      some [7, 0, 0, 0, 0, 0, 0, 0, 0, 0, 0, 0, 0, 0, 0, 0, 0, 0, 0, 0] ∧
    ∃ out, PredictFromCSV example_world (example_globals picky_session) "three.csv"
        (fun _ => 4) (fun _ => 1 / 2) 9 (fun _ _ => 0) (fun _ => 0) = some out ∧
      out.status = -999 ∧
      out.predict_calls = (csv_rows example_world.stof example_csv_three).take (1 + 1) ∧
      (∀ i, 1 ≤ i → out.predicted_classes i = 4) ∧
      (∀ j, 6 * 1 ≤ j → out.all_probabilities j = 1 / 2) ∧
      ∀ i row1, i < 1 → (csv_rows example_world.stof example_csv_three)[i]? = some row1 →
        ∀ (probabilities : Nat → ℚ) (predicted_class : Int),
          ∃ r, Predict (example_globals picky_session) (data row1) 20 probabilities
              predicted_class = some r ∧
            r.status = 0 ∧ out.predicted_classes i = r.predicted_class ∧
            ∀ j, j < 6 → out.all_probabilities (6 * i + j) = r.probabilities j := by
  have hk : (csv_rows example_world.stof example_csv_three)[1]? =
      some [7, 0, 0, 0, 0, 0, 0, 0, 0, 0, 0, 0, 0, 0, 0, 0, 0, 0, 0, 0] := by
    with_unfolding_all decide
  have h0 : (csv_rows example_world.stof example_csv_three)[0]? =
      some [3, 9, 1, 0, 0, 0, 0, 0, 0, 0, 0, 0, 0, 0, 0, 0, 0, 0, 0, 0] := by
    with_unfolding_all decide
  have hfail : ∃ rk, Predict (example_globals picky_session)
      (data [7, 0, 0, 0, 0, 0, 0, 0, 0, 0, 0, 0, 0, 0, 0, 0, 0, 0, 0, 0]) 20
      ((fun _ _ => 0) 1) ((fun _ => 0) 1) = some rk ∧ rk.status = -999 :=
    ⟨_, by with_unfolding_all rfl, rfl⟩
  obtain ⟨rk, hrk, hst⟩ := hfail
  have hbefore : ∀ m row1, m < 1 →
      (csv_rows example_world.stof example_csv_three)[m]? = some row1 →
      ∃ r, Predict (example_globals picky_session) (data row1) 20
        ((fun _ _ => 0) m) ((fun _ => 0) m) = some r ∧ r.status = 0 := by
    intro m row1 hm hrow1
    have hm0 : m = 0 := by omega
    subst hm0
    rw [h0] at hrow1
    cases hrow1
    exact ⟨_, by with_unfolding_all rfl, rfl⟩
  have hmain := PredictFromCSV_first_failure example_world (example_globals picky_session)
    "three.csv" (fun _ => 4) (fun _ => 1 / 2) 9 (fun _ _ => 0) (fun _ => 0) example_csv_three 1
    [7, 0, 0, 0, 0, 0, 0, 0, 0, 0, 0, 0, 0, 0, 0, 0, 0, 0, 0, 0] rk rfl (by decide) hk hbefore
    hrk (by rw [hst]; decide)
  rw [hst] at hmain
  exact ⟨rfl, by decide, hk, hmain⟩

/-! ## Initialization: claims C8 to C10 -/

/-- C8: when the scaling artifact opens and both arrays parse without a
number-parse error, `Initialize` returns -2 exactly when the parsed mean or the
parsed scale does not have 20 entries. Only the lengths are looked at: arrays
of 20 entries each, whatever their values (a zero scale included), pass the
check, are installed as `g_mean` and `g_scale`, and the call goes on to the
label stage (it returns 0, -3 or -999, and -3 when the label file does not
open). -/
theorem Initialize_scaler_validation (w : World) (g : Globals)
    (model_path scaler_path label_path : String) (content : List Char) (mean scale : List ℚ)
    (hopen : w.open_file scaler_path = some content)
    (hmean : parse_json_array w.stod content "mean".toList = some mean)
    (hscale : parse_json_array w.stod content "scale".toList = some scale) :
    ((Initialize w g model_path scaler_path label_path).1 = -2 ↔
      (mean.length ≠ 20 ∨ scale.length ≠ 20)) ∧
    (mean.length = 20 → scale.length = 20 →
      (Initialize w g model_path scaler_path label_path).2.g_mean = mean ∧
      (Initialize w g model_path scaler_path label_path).2.g_scale = scale ∧
      (w.open_file label_path = none →
        (Initialize w g model_path scaler_path label_path).1 = -3)) := by
  constructor
  · constructor
    · intro h
      obtain ⟨content1, mean1, scale1, h1, h2, h3, hbad⟩ :=
        Initialize_eq_minus_two w g model_path scaler_path label_path h
      rw [hopen] at h1
      cases h1
      rw [hmean] at h2
      rw [hscale] at h3
      cases h2
      cases h3
      exact hbad
    · intro hbad
      rw [Initialize_wrong_length w g model_path scaler_path label_path content mean scale hopen
        hmean hscale hbad]
  · intro hm hs
    exact (Initialize_after_validation w g model_path scaler_path label_path content mean scale
      hopen hmean hscale hm hs).2

/-- C8 on a profile of 20 means and 20 scales that are all zero: it is not
rejected, the call returns 0 and the zero scales are installed. -/
theorem Initialize_scaler_validation_witness :
    example_world.open_file "scaler.json" = some example_scaler ∧
    parse_json_array example_world.stod example_scaler "mean".toList =
      some (List.replicate 20 0) ∧
    parse_json_array example_world.stod example_scaler "scale".toList =
      some (List.replicate 20 0) ∧
    (Initialize example_world Globals.initial "model.onnx" "scaler.json" "labels.json").1 = 0 ∧
    (((Initialize example_world Globals.initial "model.onnx" "scaler.json" "labels.json").1 = -2 ↔
        ((List.replicate 20 (0 : ℚ)).length ≠ 20 ∨ (List.replicate 20 (0 : ℚ)).length ≠ 20)) ∧
      ((List.replicate 20 (0 : ℚ)).length = 20 → (List.replicate 20 (0 : ℚ)).length = 20 →
        (Initialize example_world Globals.initial "model.onnx" "scaler.json"
          "labels.json").2.g_mean = List.replicate 20 0 ∧
        (Initialize example_world Globals.initial "model.onnx" "scaler.json"
          "labels.json").2.g_scale = List.replicate 20 0 ∧
        (example_world.open_file "labels.json" = none →
          (Initialize example_world Globals.initial "model.onnx" "scaler.json"
            "labels.json").1 = -3))) :=
  ⟨by decide, by with_unfolding_all decide, by with_unfolding_all decide,
    by with_unfolding_all decide,
    Initialize_scaler_validation example_world Globals.initial "model.onnx" "scaler.json"
      "labels.json" example_scaler (List.replicate 20 0) (List.replicate 20 0) (by decide)
      (by with_unfolding_all decide) (by with_unfolding_all decide)⟩

/-- C9 as stated fails: called at program start on an artifact with a mean of
two entries and a scale of one, `Initialize` returns -2 and leaves those arrays
in `g_mean` and `g_scale`, which were empty before. -/
theorem Initialize_rejected_profile_counterexample :
    (Initialize example_world Globals.initial "model.onnx" "short.json" "labels.json").1 = -2 ∧
    Globals.initial.g_mean = [] ∧ Globals.initial.g_scale = [] ∧
    (Initialize example_world Globals.initial "model.onnx" "short.json"
      "labels.json").2.g_mean = [1, 2] ∧
    (Initialize example_world Globals.initial "model.onnx" "short.json"
      "labels.json").2.g_scale = [3] ∧
    (Initialize example_world Globals.initial "model.onnx" "short.json"
      "labels.json").2.g_mean ≠ Globals.initial.g_mean ∧
    (Initialize example_world Globals.initial "model.onnx" "short.json"
      "labels.json").2.g_scale ≠ Globals.initial.g_scale := by
  refine ⟨?_, rfl, rfl, ?_, ?_, ?_, ?_⟩ <;> with_unfolding_all decide

/-- C9 (amended): whenever `Initialize`, called on an uninitialized session,
returns -2, the artifact opened, both arrays parsed, one of them does not have
20 entries, and the call changed the globals in `g_mean` and `g_scale` only,
which now hold the two parsed arrays; the session is still uninitialized, the
label map, the environment and the engine session are as before, and the
stored arrays are not in use: every `Predict` returns -1 without running the
engine and leaves its output cells alone. -/
theorem Initialize_rejected_profile (w : World) (g : Globals)
    (model_path scaler_path label_path : String)
    (hg : g.g_initialized = false)
    (h : (Initialize w g model_path scaler_path label_path).1 = -2) :
    ∃ content mean scale, w.open_file scaler_path = some content ∧
      parse_json_array w.stod content "mean".toList = some mean ∧
      parse_json_array w.stod content "scale".toList = some scale ∧
      (mean.length ≠ 20 ∨ scale.length ≠ 20) ∧
      (Initialize w g model_path scaler_path label_path).2 =
        { g_env := g.g_env, g_session := g.g_session, g_mean := mean, g_scale := scale,
          g_labels := g.g_labels, g_initialized := false } ∧
      ∀ (features : Nat → ℚ) (feature_count : Int) (probabilities : Nat → ℚ)
        (predicted_class : Int),
        Predict (Initialize w g model_path scaler_path label_path).2 features feature_count
            probabilities predicted_class =
          some { status := -1, probabilities := probabilities,
                 predicted_class := predicted_class, engine_inputs := [] } := by
  obtain ⟨content, mean, scale, h1, h2, h3, hbad⟩ :=
    Initialize_eq_minus_two w g model_path scaler_path label_path h
  refine ⟨content, mean, scale, h1, h2, h3, hbad, ?_, ?_⟩
  · rw [Initialize_wrong_length w g model_path scaler_path label_path content mean scale h1 h2
      h3 hbad, ← hg]
  · intro features feature_count probabilities predicted_class
    rw [Initialize_wrong_length w g model_path scaler_path label_path content mean scale h1 h2
      h3 hbad]
    simp [Predict, hg]

/-- C9 (amended) on the short artifact, called at program start. -/
theorem Initialize_rejected_profile_witness :
    Globals.initial.g_initialized = false ∧
    (Initialize example_world Globals.initial "model.onnx" "short.json" "labels.json").1 = -2 ∧
    ∃ content mean scale, example_world.open_file "short.json" = some content ∧
      parse_json_array example_world.stod content "mean".toList = some mean ∧
      parse_json_array example_world.stod content "scale".toList = some scale ∧
      (mean.length ≠ 20 ∨ scale.length ≠ 20) ∧
      (Initialize example_world Globals.initial "model.onnx" "short.json" "labels.json").2 =
        { g_env := Globals.initial.g_env, g_session := Globals.initial.g_session,
          g_mean := mean, g_scale := scale, g_labels := Globals.initial.g_labels,
          g_initialized := false } ∧
      ∀ (features : Nat → ℚ) (feature_count : Int) (probabilities : Nat → ℚ)
        (predicted_class : Int),
        Predict
            (Initialize example_world Globals.initial "model.onnx" "short.json" "labels.json").2
            features feature_count probabilities predicted_class =
          some { status := -1, probabilities := probabilities,
                 predicted_class := predicted_class, engine_inputs := [] } :=
  ⟨rfl, by with_unfolding_all decide,
    Initialize_rejected_profile example_world Globals.initial "model.onnx" "short.json"
      "labels.json" rfl (by with_unfolding_all decide)⟩

/-- C10: for a call of `Initialize` made in the uninitialized state, the flag
`g_initialized` is true afterwards exactly when the call returns 0; and a call
returns 0 only when the scaling artifact opened, both arrays parsed and have
20 entries, the label artifact opened, and the runtime environment and the
engine session were constructed, so a failure at any of these stages leaves the
state uninitialized. -/
theorem Initialize_flag_iff_success (w : World) (g : Globals)
    (model_path scaler_path label_path : String) (h : g.g_initialized = false) :
    ((Initialize w g model_path scaler_path label_path).2.g_initialized = true ↔
      (Initialize w g model_path scaler_path label_path).1 = 0) ∧
    ((Initialize w g model_path scaler_path label_path).1 = 0 →
      ∃ content mean scale label_content session,
        w.open_file scaler_path = some content ∧
        parse_json_array w.stod content "mean".toList = some mean ∧
        parse_json_array w.stod content "scale".toList = some scale ∧
        mean.length = 20 ∧ scale.length = 20 ∧
        w.open_file label_path = some label_content ∧
        w.create_env = true ∧ w.create_session model_path = some session) := by
  obtain ⟨hzero, hnonzero⟩ := Initialize_flag w g model_path scaler_path label_path
  refine ⟨⟨?_, fun h0 => (hzero h0).1⟩, fun h0 => (hzero h0).2⟩
  intro hflag
  by_contra hne
  rw [hnonzero hne, h] at hflag
  exact absurd hflag (by decide)

/-- C10 at program start: a call that succeeds sets the flag, and a call whose
model cannot be loaded returns -999 and leaves the flag false. -/
theorem Initialize_flag_iff_success_witness :
    Globals.initial.g_initialized = false ∧
    (Initialize example_world Globals.initial "model.onnx" "scaler.json" "labels.json").1 = 0 ∧
    (Initialize example_world Globals.initial "model.onnx" "scaler.json"
      "labels.json").2.g_initialized = true ∧
    (Initialize example_world Globals.initial "other.onnx" "scaler.json" "labels.json").1
      = -999 ∧
    (Initialize example_world Globals.initial "other.onnx" "scaler.json"
      "labels.json").2.g_initialized = false ∧
    (((Initialize example_world Globals.initial "model.onnx" "scaler.json"
        "labels.json").2.g_initialized = true ↔
      (Initialize example_world Globals.initial "model.onnx" "scaler.json" "labels.json").1 = 0) ∧
    ((Initialize example_world Globals.initial "model.onnx" "scaler.json" "labels.json").1 = 0 →
      ∃ content mean scale label_content session,
        example_world.open_file "scaler.json" = some content ∧
        parse_json_array example_world.stod content "mean".toList = some mean ∧
        parse_json_array example_world.stod content "scale".toList = some scale ∧
        mean.length = 20 ∧ scale.length = 20 ∧
        example_world.open_file "labels.json" = some label_content ∧
        example_world.create_env = true ∧
        example_world.create_session "model.onnx" = some session)) :=
  ⟨rfl, by with_unfolding_all decide, by with_unfolding_all decide,
    by with_unfolding_all decide, by with_unfolding_all decide,
    Initialize_flag_iff_success example_world Globals.initial "model.onnx" "scaler.json"
      "labels.json" rfl⟩

/-! ## Lemmas on `find`, `substr` and the label loop -/

theorem find_from_lt (needle : List Char) (hne : needle ≠ []) :
    ∀ (s : List Char) (i : Nat),
      find_from needle s i = npos ∨ (i ≤ find_from needle s i ∧ find_from needle s i < i + s.length) := by
  intro s
  induction s with
  | nil => intro i; simp [find_from, hne]
  | cons c cs ih =>
    intro i
    rw [find_from]
    by_cases hp : needle.isPrefixOf (c :: cs) = true
    · rw [if_pos hp]
      exact Or.inr ⟨le_refl _, by simp⟩
    · rw [if_neg hp]
      rcases ih (i + 1) with h | ⟨h1, h2⟩
      · exact Or.inl h
      · exact Or.inr ⟨by omega, by simp only [List.length_cons]; omega⟩

theorem find_lt (s needle : List Char) (hne : needle ≠ []) (pos : Nat) :
    find s needle pos = npos ∨ (pos ≤ find s needle pos ∧ find s needle pos < s.length) := by
  unfold find
  by_cases hpos : pos > s.length
  · rw [if_pos hpos]; exact Or.inl rfl
  · rw [if_neg hpos]
    rcases find_from_lt needle hne (s.drop pos) pos with h | ⟨h1, h2⟩
    · exact Or.inl h
    · refine Or.inr ⟨h1, ?_⟩
      rw [List.length_drop] at h2
      omega

/-- The start position `find(...) + 1` of lines 61 and 144 is within the text,
also when the search fails and the sum wraps around to 0. -/
theorem value_start_le (s : List Char) (pos : Nat) :
    size_add (find s ['"'] pos) 1 ≤ s.length := by
  rcases find_lt s ['"'] (by simp) pos with h | ⟨_, h⟩
  · rw [h]
    have : size_add npos 1 = 0 := by decide
    omega
  · unfold size_add
    have := Nat.mod_le (find s ['"'] pos + 1) (2 ^ 64)
    omega

theorem substr_value_ne_none (s : List Char) (pos count : Nat) :
    substr s (size_add (find s ['"'] pos) 1) count ≠ none := by
  unfold substr
  rw [if_neg (by have := value_start_le s pos; omega)]
  simp

theorem parse_labels_ok (label_content : List Char) :
    ∀ (is : List Nat) (labels : List (List Char)),
      ∃ out, parse_labels label_content is labels = .ok out ∧ out.length = labels.length := by
  intro is
  induction is with
  | nil => intro labels; exact ⟨labels, rfl, rfl⟩
  | cons i is ih =>
    intro labels
    rw [parse_labels]
    dsimp only
    split_ifs with hpos
    · exact ih labels
    · cases hsub : substr label_content
          (size_add (find label_content ['"']
            (size_add (find label_content (['"'] ++ to_string i ++ ['"']) 0)
              (['"'] ++ to_string i ++ ['"']).length)) 1)
          (size_sub (find label_content ['"']
            (size_add (find label_content ['"']
              (size_add (find label_content (['"'] ++ to_string i ++ ['"']) 0)
                (['"'] ++ to_string i ++ ['"']).length)) 1))
            (size_add (find label_content ['"']
              (size_add (find label_content (['"'] ++ to_string i ++ ['"']) 0)
                (['"'] ++ to_string i ++ ['"']).length)) 1)) with
      | none => exact absurd hsub (substr_value_ne_none _ _ _)
      | some value =>
        obtain ⟨out, hout, hlen⟩ := ih (labels.set i value)
        exact ⟨out, hout, by rw [hlen, List.length_set]⟩

theorem length_resize (v : List (List Char)) (n : Nat) : (resize v n).length = n := by
  simp only [resize, List.length_append, List.length_take, List.length_replicate]
  omega

/-- The label stage and what follows it (lines 138-164), once the scaler has
passed validation and the label artifact has opened: the loop ends normally
with six slots, and only the runtime can still fail. -/
theorem Initialize_label_stage (w : World) (g : Globals)
    (model_path scaler_path label_path : String) (content : List Char) (mean scale : List ℚ)
    (label_content : List Char)
    (hopen : w.open_file scaler_path = some content)
    (hmean : parse_json_array w.stod content "mean".toList = some mean)
    (hscale : parse_json_array w.stod content "scale".toList = some scale)
    (hm : mean.length = 20) (hs : scale.length = 20)
    (hlabel : w.open_file label_path = some label_content) :
    ∃ labels, parse_labels label_content (List.range 6) (resize g.g_labels 6) = .ok labels ∧
      labels.length = 6 ∧
      Initialize w g model_path scaler_path label_path =
        if w.create_env = false then
          (-999, { g_env := g.g_env, g_session := g.g_session, g_mean := mean, g_scale := scale,
                   g_labels := labels, g_initialized := g.g_initialized })
        else
          match w.create_session model_path with
          | none =>
            (-999, { g_env := true, g_session := g.g_session, g_mean := mean, g_scale := scale,
                     g_labels := labels, g_initialized := g.g_initialized })
          | some session =>
            (0, { g_env := true, g_session := some session, g_mean := mean, g_scale := scale,
                  g_labels := labels, g_initialized := true }) := by
  obtain ⟨labels, hparse, hlen⟩ := parse_labels_ok label_content (List.range 6) (resize g.g_labels 6)
  rw [length_resize] at hlen
  refine ⟨labels, hparse, hlen, ?_⟩
  unfold Initialize
  simp only [hopen, hmean, hscale, hm, hs, ne_eq, not_true_eq_false, or_self, if_false, hlabel,
    hparse, hlen]
  cases hce : w.create_env <;> simp

/-! ## Labels, class names and teardown: claims C16 to C18 -/

/-- C16: for every label artifact text, the extraction loop raises no error and
yields exactly 6 slots: every start position `find(...) + 1` handed to `substr`
is within the text (it is 0 when no quote is found), so `substr` never throws;
the loop ends normally from any previous slots; `load_labels` returns 6 slots;
and `Initialize`, once the scaler is valid and the label artifact has opened,
leaves 6 slots in `g_labels` and returns 0 unless the runtime fails. -/
theorem label_extraction_total (label_content : List Char) :
    (∀ pos count,
      substr label_content (size_add (find label_content ['"'] pos) 1) count ≠ none) ∧
    (∀ labels, ∃ out,
      parse_labels label_content (List.range 6) (resize labels 6) = .ok out ∧ out.length = 6) ∧
    (∀ (w : World) (filename : String), w.open_file filename = some label_content →
      ∃ out, load_labels w filename = some out ∧ out.length = 6) ∧
    (∀ (w : World) (g : Globals) (model_path scaler_path label_path : String)
        (content : List Char) (mean scale : List ℚ),
      w.open_file scaler_path = some content →
      parse_json_array w.stod content "mean".toList = some mean →
      parse_json_array w.stod content "scale".toList = some scale →
      mean.length = 20 → scale.length = 20 →
      w.open_file label_path = some label_content →
      (Initialize w g model_path scaler_path label_path).2.g_labels.length = 6 ∧
      (w.create_env = true → w.create_session model_path ≠ none →
        (Initialize w g model_path scaler_path label_path).1 = 0)) := by
  refine ⟨fun pos count => substr_value_ne_none label_content pos count, ?_, ?_, ?_⟩
  · intro labels
    obtain ⟨out, hout, hlen⟩ := parse_labels_ok label_content (List.range 6) (resize labels 6)
    exact ⟨out, hout, by rw [hlen, length_resize]⟩
  · intro w filename hopen
    obtain ⟨out, hout, hlen⟩ :=
      parse_labels_ok label_content (List.range 6) (List.replicate 6 [])
    refine ⟨out, ?_, by rw [hlen, List.length_replicate]⟩
    simp only [load_labels, hopen, hout]
  · intro w g model_path scaler_path label_path content mean scale hopen hmean hscale hm hs hlabel
    obtain ⟨labels, _, hlen, heq⟩ := Initialize_label_stage w g model_path scaler_path label_path
      content mean scale label_content hopen hmean hscale hm hs hlabel
    rw [heq]
    constructor
    · split_ifs
      · exact hlen
      · cases w.create_session model_path <;> exact hlen
    · intro hce hcs
      rw [if_neg (by simp [hce])]
      cases hsess : w.create_session model_path with
      | none => exact absurd hsess hcs
      | some session => rfl

/-- C16 on the two texts the claim names: a key with no quote after it, and a
value whose opening quote is the last character. Both load into six slots, all
of them empty. -/
theorem label_extraction_total_witness :
    load_labels (one_file_world "\"0\"".toList) "labels.json" = some [[], [], [], [], [], []] ∧
    load_labels (one_file_world "\"0\":\"".toList) "labels.json" =
      some [[], [], [], [], [], []] ∧
    (∃ out, load_labels (one_file_world "\"0\":\"".toList) "labels.json" = some out ∧
      out.length = 6) :=
  ⟨by decide, by decide,
    (label_extraction_total "\"0\":\"".toList).2.2.1 (one_file_world "\"0\":\"".toList)
      "labels.json" rfl⟩

/-- C17: in a state whose label map has 6 slots whenever the session is
initialized, `GetClassName` returns: -1 with the buffer untouched when the
session is not initialized; -2 with the buffer untouched when it is initialized
and `class_index` is outside `0..5`; and otherwise 0, the buffer being what
`mbstowcs` makes of slot `class_index` of the label map. The status is 0 exactly
when the session is initialized and `0 <= class_index < 6`. -/
theorem GetClassName_status (mbstowcs : (Nat → Char) → List Char → Nat → (Nat → Char))
    (g : Globals) (class_index : Int) (buffer : Nat → Char) (buffer_size : Int)
    (hlabels : g.g_initialized = true → g.g_labels.length = 6) :
    ∃ r, GetClassName mbstowcs g class_index buffer buffer_size = some r ∧
      (g.g_initialized = false → r = (-1, buffer)) ∧
      (g.g_initialized = true → (class_index < 0 ∨ 6 ≤ class_index) → r = (-2, buffer)) ∧
      (g.g_initialized = true → 0 ≤ class_index → class_index < 6 →
        ∃ label, g.g_labels[class_index.toNat]? = some label ∧
          r = (0, mbstowcs buffer (c_str label) (int_to_size buffer_size))) ∧
      (r.1 = 0 ↔ (g.g_initialized = true ∧ 0 ≤ class_index ∧ class_index < 6)) := by
  unfold GetClassName
  cases hinit : g.g_initialized with
  | false =>
    refine ⟨(-1, buffer), by simp, fun _ => rfl, ?_, ?_, ?_⟩
    · intro h; exact absurd h (by decide)
    · intro h; exact absurd h (by decide)
    · simp
  | true =>
    by_cases hrange : class_index < 0 ∨ class_index ≥ 6
    · refine ⟨(-2, buffer), by simp [hrange], ?_, fun _ _ => rfl, ?_, ?_⟩
      · intro h; exact absurd h (by decide)
      · intro _ h0 h6
        rcases hrange with h | h <;> omega
      · constructor
        · intro h
          have h2 : (-2 : Int) = 0 := h
          exact absurd h2 (by decide)
        · rintro ⟨_, h0, h6⟩
          rcases hrange with h | h <;> omega
    · have h0 : 0 ≤ class_index := by
        by_contra h; exact hrange (Or.inl (by omega))
      have h6 : class_index < 6 := by
        by_contra h; exact hrange (Or.inr (by omega))
      have hlen := hlabels hinit
      have hidx : class_index.toNat < g.g_labels.length := by omega
      refine ⟨(0, mbstowcs buffer (c_str (g.g_labels.get ⟨class_index.toNat, hidx⟩))
        (int_to_size buffer_size)), ?_, ?_, ?_, ?_, ?_⟩
      · simp [hrange, List.getElem?_eq_getElem hidx]
      · intro h; exact absurd h (by decide)
      · intro _ h
        rcases h with h | h <;> omega
      · intro _ _ _
        exact ⟨_, by simp [List.getElem?_eq_getElem hidx], rfl⟩
      · simp [h0, h6]

/-- C17 after a successful `Initialize` from the example label artifact: class 2
delivers its label, followed by the terminator, and leaves the rest of the
buffer alone; class 6 is refused; before `Initialize` every call is refused. -/
theorem GetClassName_status_witness :
    example_initialized.g_initialized = true ∧
    GetClassName example_mbstowcs example_initialized 2 (fun _ => 'z') 8 =
      some (0, example_mbstowcs (fun _ => 'z') "dog".toList 8) ∧
    example_mbstowcs (fun _ => 'z') "dog".toList 8 0 = 'd' ∧
    example_mbstowcs (fun _ => 'z') "dog".toList 8 2 = 'g' ∧
    example_mbstowcs (fun _ => 'z') "dog".toList 8 3 = Char.ofNat 0 ∧
    example_mbstowcs (fun _ => 'z') "dog".toList 8 4 = 'z' ∧
    GetClassName example_mbstowcs example_initialized 6 (fun _ => 'z') 8 =
      some (-2, fun _ => 'z') ∧
    GetClassName example_mbstowcs Globals.initial 2 (fun _ => 'z') 8 = some (-1, fun _ => 'z') ∧
    ∃ r, GetClassName example_mbstowcs example_initialized 2 (fun _ => 'z') 8 = some r ∧
      (example_initialized.g_initialized = false → r = (-1, fun _ => 'z')) ∧
      (example_initialized.g_initialized = true → ((2 : Int) < 0 ∨ (6 : Int) ≤ 2) →
        r = (-2, fun _ => 'z')) ∧
      (example_initialized.g_initialized = true → (0 : Int) ≤ 2 → (2 : Int) < 6 →
        ∃ label, example_initialized.g_labels[(2 : Int).toNat]? = some label ∧
          r = (0, example_mbstowcs (fun _ => 'z') (c_str label) (int_to_size 8))) ∧
      (r.1 = 0 ↔ (example_initialized.g_initialized = true ∧ (0 : Int) ≤ 2 ∧ (2 : Int) < 6)) :=
  ⟨by with_unfolding_all decide, by with_unfolding_all rfl, by decide, by decide, by decide,
    by decide, by with_unfolding_all rfl, rfl,
    GetClassName_status example_mbstowcs example_initialized 2 (fun _ => 'z') 8
      (fun _ => by with_unfolding_all decide)⟩

/-- C18: from every state `Cleanup` returns (it is a total function) and leaves
the session uninitialized, the engine session and environment released, and
the mean, the scale and the label map empty; a second `Cleanup` changes
nothing. -/
theorem Cleanup_idempotent (g : Globals) :
    (Cleanup g).g_initialized = false ∧ (Cleanup g).g_session.isNone = true ∧
    (Cleanup g).g_env = false ∧ (Cleanup g).g_mean = [] ∧ (Cleanup g).g_scale = [] ∧
    (Cleanup g).g_labels = [] ∧ Cleanup (Cleanup g) = Cleanup g :=
  ⟨rfl, rfl, rfl, rfl, rfl, rfl, rfl⟩

/-! ## Standardization: claim C19 -/

/-- A call of `Initialize` that returns 0 leaves an initialized session with a
mean and a scale of 20 entries and an engine session, whatever the globals held
before the call. -/
theorem Initialize_success_profile (w : World) (g : Globals)
    (model_path scaler_path label_path : String)
    (h0 : (Initialize w g model_path scaler_path label_path).1 = 0) :
    (Initialize w g model_path scaler_path label_path).2.g_initialized = true ∧
    (Initialize w g model_path scaler_path label_path).2.g_mean.length = 20 ∧
    (Initialize w g model_path scaler_path label_path).2.g_scale.length = 20 ∧
    ∃ session, (Initialize w g model_path scaler_path label_path).2.g_session = some session := by
  revert h0
  unfold Initialize
  rcases h1 : w.open_file scaler_path with _ | content
  · simp
  dsimp only
  rcases h2 : parse_json_array w.stod content "mean".toList with _ | mean
  · simp
  dsimp only
  rcases h3 : parse_json_array w.stod content "scale".toList with _ | scale
  · simp
  dsimp only
  by_cases hlen : mean.length ≠ 20 ∨ scale.length ≠ 20
  · simp [hlen]
  rw [if_neg hlen]
  rcases h4 : w.open_file label_path with _ | label_content
  · simp
  dsimp only
  rcases h5 : parse_labels label_content (List.range 6) (resize g.g_labels 6) with labels | labels
  · simp
  dsimp only
  by_cases h6 : labels.length ≠ 6
  · simp [h6]
  rw [if_neg h6]
  by_cases h7 : (!w.create_env) = true
  · simp [h7]
  rw [if_neg h7]
  rcases h8 : w.create_session model_path with _ | session
  · simp
  · simp only [ne_eq, not_or, not_not] at hlen
    intro _
    exact ⟨rfl, hlen.1, hlen.2, session, rfl⟩

/-- On an initialized session that holds an engine session and a mean and a
scale of 20 entries each, `Predict` called with 20 features returns, and the
one vector it hands to the engine has 20 components, component `i` being the
float division of `features[i] - mean[i]` by `scale[i]`: the exact quotient
`(features[i] - mean[i]) / scale[i]` when `scale[i]` is not zero. -/
theorem Predict_standardizes (g : Globals) (features : Nat → ℚ) (probabilities : Nat → ℚ)
    (predicted_class : Int) (session : Session)
    (hinit : g.g_initialized = true) (hsession : g.g_session = some session)
    (hmean : g.g_mean.length = 20) (hscale : g.g_scale.length = 20) :
    ∃ r x, Predict g features 20 probabilities predicted_class = some r ∧
      r.engine_inputs = [x] ∧ x.length = 20 ∧
      ∀ (i : Nat) (m sc : ℚ), i < 20 → g.g_mean[i]? = some m → g.g_scale[i]? = some sc →
        x[i]? = some (float_div (features i - m) sc) ∧
        (sc ≠ 0 → x[i]? = some (some ((features i - m) / sc))) := by
  have hx : scaled_features g features =
      some ((List.range 20).map fun i =>
        float_div (features i - g.g_mean.getD i 0) (g.g_scale.getD i 0)) := by
    unfold scaled_features
    rw [if_pos ⟨by omega, by omega⟩]
  have hcomp : ∀ (i : Nat) (m sc : ℚ), i < 20 → g.g_mean[i]? = some m → g.g_scale[i]? = some sc →
      ((List.range 20).map (fun i =>
        float_div (features i - g.g_mean.getD i 0) (g.g_scale.getD i 0)))[i]? =
          some (float_div (features i - m) sc) ∧
      (sc ≠ 0 → ((List.range 20).map (fun i =>
        float_div (features i - g.g_mean.getD i 0) (g.g_scale.getD i 0)))[i]? =
          some (some ((features i - m) / sc))) := by
    intro i m sc hi hm hsc
    have hget : ((List.range 20).map (fun i =>
        float_div (features i - g.g_mean.getD i 0) (g.g_scale.getD i 0)))[i]? =
          some (float_div (features i - m) sc) := by
      rw [List.getElem?_map, List.getElem?_range hi]
      simp [List.getD_eq_getElem?_getD, hm, hsc]
    refine ⟨hget, ?_⟩
    intro hne
    rw [hget, float_div, if_neg hne]
  cases hrun : session.Run ((List.range 20).map fun i =>
      float_div (features i - g.g_mean.getD i 0) (g.g_scale.getD i 0)) with
  | none =>
    exact ⟨_, _, by simp only [Predict, hinit, hx, hsession, hrun]; rfl, rfl, by simp, hcomp⟩
  | some output_data =>
    exact ⟨_, _, by simp only [Predict, hinit, hx, hsession, hrun]; rfl, rfl, by simp, hcomp⟩

/-- The session that a successful `Initialize` leaves standardizes as C19
says: `Predict` called with 20 features returns and hands the engine one vector
of 20 components, component `i` being `(features[i] - mean[i]) / scale[i]`
wherever `scale[i]` is not zero. -/
theorem Initialize_then_Predict_standardizes (w : World) (g : Globals)
    (model_path scaler_path label_path : String)
    (h0 : (Initialize w g model_path scaler_path label_path).1 = 0)
    (features : Nat → ℚ) (probabilities : Nat → ℚ) (predicted_class : Int) :
    ∃ r x, Predict (Initialize w g model_path scaler_path label_path).2 features 20
        probabilities predicted_class = some r ∧
      r.engine_inputs = [x] ∧ x.length = 20 ∧
      ∀ (i : Nat) (m sc : ℚ), i < 20 →
        (Initialize w g model_path scaler_path label_path).2.g_mean[i]? = some m →
        (Initialize w g model_path scaler_path label_path).2.g_scale[i]? = some sc →
        sc ≠ 0 → x[i]? = some (some ((features i - m) / sc)) := by
  obtain ⟨hinit, hmean, hscale, session, hsession⟩ :=
    Initialize_success_profile w g model_path scaler_path label_path h0
  obtain ⟨r, x, hp, hin, hlen, hcomp⟩ :=
    Predict_standardizes _ features probabilities predicted_class session hinit hsession hmean
      hscale
  exact ⟨r, x, hp, hin, hlen, fun i m sc hi hm hsc hne => (hcomp i m sc hi hm hsc).2 hne⟩

/-- The standardizer with every mean 1, every scale 2 and every feature 5: each
component handed to the engine is `(5 - 1) / 2 = 2`. -/
theorem Predict_standardizes_example :
    ∃ r, Predict shifted_globals (fun _ => 5) 20 (fun _ => 0) 0 = some r ∧
      r.engine_inputs = [List.replicate 20 (some 2)] :=
  ⟨_, by with_unfolding_all rfl, by with_unfolding_all decide⟩

/-- C19, evaluated where the code departs from it: after a successful
`Initialize` and a second `Initialize` that rejects a short scaling artifact
(-2), the session is still initialized and holds an engine session, but the
installed mean and scale have 2 and 1 entries, so `mean[2]` and `scale[1]` of
the claimed formula do not exist; building `scaled_features` reads them past the
end of the vectors (undefined), and `Predict` called with 20 features hands the
engine no standardized vector. -/
theorem Predict_after_rejected_profile :
    Reachable example_reinitialized ∧
    example_reinitialized.g_initialized = true ∧
    example_reinitialized.g_session.isSome = true ∧
    example_reinitialized.g_mean = [1, 2] ∧ example_reinitialized.g_scale = [3] ∧
    example_reinitialized.g_mean[2]? = none ∧ example_reinitialized.g_scale[1]? = none ∧
    scaled_features example_reinitialized (fun _ => 5) = none ∧
    Predict example_reinitialized (fun _ => 5) 20 (fun _ => 0) 0 = none :=
  ⟨⟨_, rfl⟩, by with_unfolding_all decide, by with_unfolding_all decide,
    by with_unfolding_all decide, by with_unfolding_all decide, by with_unfolding_all decide,
    by with_unfolding_all decide, by with_unfolding_all rfl, by with_unfolding_all rfl⟩

/-! ## Lemmas on `parse_json_array` -/

theorem find_from_first_occurrence (needle rest : List Char)
    (hrest : needle.isPrefixOf rest = true) :
    ∀ (before : List Char) (i : Nat),
      (∀ q, q < before.length → needle.isPrefixOf ((before ++ rest).drop q) = false) →
      find_from needle (before ++ rest) i = i + before.length := by
  intro before
  induction before with
  | nil =>
    intro i _
    cases rest with
    | nil =>
      cases needle with
      | nil => simp [find_from]
      | cons a l => simp [List.isPrefixOf] at hrest
    | cons c cs => simp [find_from, hrest]
  | cons b bs ih =>
    intro i hq
    have h0 := hq 0 (by simp)
    rw [List.drop_zero] at h0
    rw [List.cons_append] at h0 ⊢
    rw [find_from, if_neg (by simp [h0]), ih (i + 1)]
    · simp only [List.length_cons]; omega
    · intro q hq2
      have := hq (q + 1) (by simp only [List.length_cons]; omega)
      simpa using this

theorem find_first_occurrence (needle before rest : List Char)
    (hfirst : first_occurrence needle (before ++ rest) before.length) :
    find (before ++ rest) needle 0 = before.length := by
  unfold find
  rw [if_neg (by omega), List.drop_zero,
    find_from_first_occurrence needle rest (by simpa using hfirst.1) before 0 hfirst.2]
  omega

theorem find_from_char (c : Char) (rest : List Char) :
    ∀ (pre : List Char) (i : Nat), c ∉ pre →
      find_from [c] (pre ++ c :: rest) i = i + pre.length := by
  intro pre
  induction pre with
  | nil => intro i _; simp [find_from, List.isPrefixOf]
  | cons a l ih =>
    intro i hc
    have ha : c ≠ a := fun h => hc (by simp [h])
    have hl : c ∉ l := fun h => hc (by simp [h])
    rw [List.cons_append, find_from, if_neg (by simp [List.isPrefixOf, ha]), ih (i + 1) hl]
    simp only [List.length_cons]; omega

theorem find_char (c : Char) (front pre rest : List Char) (hc : c ∉ pre) :
    find (front ++ (pre ++ c :: rest)) [c] front.length = front.length + pre.length := by
  unfold find
  rw [if_neg (by simp), List.drop_left, find_from_char c rest pre front.length hc]

theorem json_tokens_step (ss : List Char) :
    json_tokens ss =
      (if erase_spaces (ss.takeWhile (fun c => c != ',')) = [] then []
        else [erase_spaces (ss.takeWhile (fun c => c != ','))]) ++
      json_tokens ((ss.dropWhile (fun c => c != ',')).drop 1) := by
  have hnil : json_tokens [] = [] := by decide
  rw [json_tokens, split_text_eq]
  cases hd : ss.dropWhile (fun c => c != ',') with
  | nil =>
    simp only [List.drop_nil, hnil, List.append_nil, nonempty_tokens, List.map_cons, List.map_nil]
    by_cases he : erase_spaces (ss.takeWhile (fun c => c != ',')) = []
    · simp [he]
    · simp [he, List.filter_cons]
  | cons e rest =>
    simp only [List.drop_one, List.tail_cons, nonempty_tokens, List.map_cons, json_tokens]
    by_cases he : erase_spaces (ss.takeWhile (fun c => c != ',')) = []
    · simp [he, List.filter_cons]
    · simp [he, List.filter_cons]

theorem parse_json_items_eq (stod : List Char → Option ℚ) :
    ∀ (fuel : Nat) (ss : List Char) (result : List ℚ), ss.length < fuel →
      parse_json_items stod fuel ss result =
        (parse_all stod (json_tokens ss)).map (fun xs => result ++ xs) := by
  intro fuel
  induction fuel with
  | zero => intro ss result h; omega
  | succ fuel ih =>
    intro ss result hlen
    cases ss with
    | nil =>
      have hnil : json_tokens [] = [] := by decide
      simp [parse_json_items, getline, hnil, parse_all]
    | cons c cs =>
      have hdrop := length_dropWhile_le (fun c => c != ',') (c :: cs)
      have hrest : (((c :: cs).dropWhile (fun c => c != ',')).drop 1).length < fuel := by
        rw [List.length_drop]
        simp only [List.length_cons] at hlen hdrop
        omega
      rw [json_tokens_step]
      simp only [parse_json_items, getline]
      by_cases he : erase_spaces ((c :: cs).takeWhile (fun c => c != ',')) = []
      · have he2 : List.filter (fun c => !isspace c)
            ((c :: cs).takeWhile (fun c => c != ',')) = [] := he
        rw [if_pos he2, if_pos he, ih _ _ hrest]
        rfl
      · have he2 : ¬ List.filter (fun c => !isspace c)
            ((c :: cs).takeWhile (fun c => c != ',')) = [] := he
        rw [if_neg he2, if_neg he]
        simp only [List.singleton_append, parse_all]
        cases hv : stod (erase_spaces ((c :: cs).takeWhile (fun c => c != ','))) with
        | none =>
          have hv2 : stod (List.filter (fun c => !isspace c)
              ((c :: cs).takeWhile (fun c => c != ','))) = none := hv
          simp [hv2]
        | some x =>
          have hv2 : stod (List.filter (fun c => !isspace c)
              ((c :: cs).takeWhile (fun c => c != ','))) = some x := hv
          simp only [hv2]
          rw [ih _ _ hrest]
          rw [Option.map_map]
          congr 1
          funext xs
          simp

theorem parse_all_eq_some (stod : List Char → Option ℚ) :
    ∀ (toks : List (List Char)) (values : List ℚ),
      parse_all stod toks = some values ↔ toks.map stod = values.map some := by
  intro toks
  induction toks with
  | nil =>
    intro values
    cases values <;> simp [parse_all]
  | cons t ts ih =>
    intro values
    rw [parse_all]
    cases ht : stod t with
    | none =>
      cases values <;> simp [ht]
    | some x =>
      cases values with
      | nil => simp [ht]
      | cons v vs =>
        simp only [ht, List.map_cons, List.cons.injEq, Option.some.injEq, Option.map_eq_some']
        constructor
        · rintro ⟨xs, hxs, hx, rfl⟩
          exact ⟨hx, (ih xs).mp hxs⟩
        · rintro ⟨hx, hvs⟩
          exact ⟨vs, (ih vs).mpr hvs, hx, rfl⟩

theorem parse_all_eq_none (stod : List Char → Option ℚ) (tok : List Char)
    (hbad : stod tok = none) :
    ∀ toks : List (List Char), tok ∈ toks → parse_all stod toks = none := by
  intro toks
  induction toks with
  | nil => intro h; simp at h
  | cons t ts ih =>
    intro h
    rw [parse_all]
    cases ht : stod t with
    | none => rfl
    | some x =>
      have hts : tok ∈ ts := by
        rcases List.mem_cons.mp h with h1 | h1
        · rw [h1, ht] at hbad
          exact absurd hbad (by simp)
        · exact h1
      simp [ih hts]

theorem substr_middle (front mid back : List Char) :
    substr (front ++ (mid ++ back)) front.length mid.length = some mid := by
  unfold substr
  rw [if_neg (by simp), List.drop_left, List.take_left]

/-- On a text with well-formed brackets after the first occurrence of the
quoted key, `parse_json_array` parses the tokens between the brackets. -/
theorem parse_json_array_eq_parse_all (stod : List Char → Option ℚ)
    (key before between content post : List Char)
    (hlen : (before ++ ((['"'] ++ key ++ ['"']) ++
      (between ++ '[' :: (content ++ ']' :: post)))).length < npos)
    (hfirst : first_occurrence (['"'] ++ key ++ ['"'])
      (before ++ ((['"'] ++ key ++ ['"']) ++ (between ++ '[' :: (content ++ ']' :: post))))
      before.length)
    (hkey : '[' ∉ key) (hbetween : '[' ∉ between) (hcontent : ']' ∉ content) :
    parse_json_array stod
        (before ++ ((['"'] ++ key ++ ['"']) ++ (between ++ '[' :: (content ++ ']' :: post))))
        key =
      parse_all stod (json_tokens content) := by
  generalize hq : ['"'] ++ key ++ ['"'] = qkey at hlen hfirst
  have hpre : '[' ∉ qkey ++ between := by
    rw [← hq]
    simp [hkey, hbetween]
  have hkp : find (before ++ (qkey ++ (between ++ '[' :: (content ++ ']' :: post)))) qkey 0 =
      before.length := find_first_occurrence qkey before _ hfirst
  have hstart : find (before ++ (qkey ++ (between ++ '[' :: (content ++ ']' :: post)))) ['[']
      before.length = before.length + (qkey ++ between).length := by
    have h := find_char '[' before (qkey ++ between) (content ++ ']' :: post) hpre
    rw [List.append_assoc] at h
    exact h
  have hend : find (before ++ (qkey ++ (between ++ '[' :: (content ++ ']' :: post)))) [']']
      (before.length + (qkey ++ between).length) =
      before.length + (qkey ++ between).length + (content.length + 1) := by
    have h := find_char ']' (before ++ (qkey ++ between)) ('[' :: content) post
      (by simp [hcontent])
    rw [List.length_append, List.length_cons] at h
    rw [← h]
    congr 1
    simp [List.append_assoc]
  have hsub : substr (before ++ (qkey ++ (between ++ '[' :: (content ++ ']' :: post))))
      (before.length + (qkey ++ between).length + 1) content.length = some content := by
    have h := substr_middle (before ++ (qkey ++ (between ++ ['[']))) content (']' :: post)
    rw [← h]
    congr 1
    · simp [List.append_assoc]
    · simp only [List.length_append, List.length_cons, List.length_nil]
      omega
  have hbound : before.length + (qkey ++ between).length + (content.length + 1) < 2 ^ 64 - 1 := by
    have : npos = 2 ^ 64 - 1 := rfl
    rw [this] at hlen
    simp only [List.length_append, List.length_cons] at hlen ⊢
    omega
  have hne : before.length ≠ npos := by
    have : npos = 2 ^ 64 - 1 := rfl
    rw [this]
    omega
  have hadd : size_add (before.length + (qkey ++ between).length) 1 =
      before.length + (qkey ++ between).length + 1 := by
    unfold size_add
    exact Nat.mod_eq_of_lt (by omega)
  have hcount : size_sub (size_sub
      (before.length + (qkey ++ between).length + (content.length + 1))
      (before.length + (qkey ++ between).length)) 1 = content.length := by
    unfold size_sub
    have h1 : (before.length + (qkey ++ between).length + (content.length + 1) + 2 ^ 64 -
        (before.length + (qkey ++ between).length)) % 2 ^ 64 = content.length + 1 := by
      rw [show before.length + (qkey ++ between).length + (content.length + 1) + 2 ^ 64 -
        (before.length + (qkey ++ between).length) = content.length + 1 + 2 ^ 64 by omega]
      rw [Nat.add_mod_right]
      exact Nat.mod_eq_of_lt (by omega)
    rw [h1]
    rw [show content.length + 1 + 2 ^ 64 - 1 = content.length + 2 ^ 64 by omega]
    rw [Nat.add_mod_right]
    exact Nat.mod_eq_of_lt (by omega)
  simp only [parse_json_array, hq, hkp, if_neg hne, hstart, hend, hadd, hcount, hsub]
  rw [parse_json_items_eq stod _ _ _ (Nat.lt_succ_self _)]
  cases parse_all stod (json_tokens content) <;> simp

/-! ## The scaling-profile loader: claims C12 to C14 -/

/-- C12, evaluated where the code departs from it. With a `[` after the key but
no `]`, the search for `]` fails, the count wraps around and the rest of the
text is parsed: the result is `[1, 2]`, not empty. With no `[` after the key,
both searches fail, `array_start + 1` wraps to 0, the whole text is parsed and
`stod` throws on its first token: an exception leaves the function. Only the
missing key gives the empty sequence. -/
theorem parse_json_array_malformed_brackets :
    find "\"mean\": [1, 2".toList [']'] 0 = npos ∧
    parse_json_array example_number "\"mean\": [1, 2".toList "mean".toList = some [1, 2] ∧
    find "\"mean\": 5".toList ['['] 0 = npos ∧
    parse_json_array example_number "\"mean\": 5".toList "mean".toList = none ∧
    parse_json_array example_number "[1, 2]".toList "mean".toList = some [] := by
  refine ⟨?_, ?_, ?_, ?_, ?_⟩ <;> with_unfolding_all decide

/-- C13: let the text be `before ++ "key" ++ between ++ [ ++ content ++ ] ++
post`, where the quoted key occurs at no earlier position, no `[` stands in the
key or between the key and the bracket, and no `]` stands in `content` (so
`content` lies between the first `[` after the key and the first `]` after
it). Then `parse_json_array` is the parse of the comma-separated tokens of
`content`, whitespace removed and empty tokens skipped: it returns `values`
exactly when `values` lists, in order, the parsed value of each of these tokens,
and then it has as many entries as there are tokens. A text is shorter than
`npos`, as every `std::string` is. -/
theorem parse_json_array_well_formed (stod : List Char → Option ℚ)
    (key before between content post : List Char)
    (hlen : (before ++ ((['"'] ++ key ++ ['"']) ++
      (between ++ '[' :: (content ++ ']' :: post)))).length < npos)
    (hfirst : first_occurrence (['"'] ++ key ++ ['"'])
      (before ++ ((['"'] ++ key ++ ['"']) ++ (between ++ '[' :: (content ++ ']' :: post))))
      before.length)
    (hkey : '[' ∉ key) (hbetween : '[' ∉ between) (hcontent : ']' ∉ content) :
    parse_json_array stod
        (before ++ ((['"'] ++ key ++ ['"']) ++ (between ++ '[' :: (content ++ ']' :: post))))
        key = parse_all stod (json_tokens content) ∧
    (∀ values,
      parse_json_array stod
          (before ++ ((['"'] ++ key ++ ['"']) ++ (between ++ '[' :: (content ++ ']' :: post))))
          key = some values ↔
        (json_tokens content).map stod = values.map some) ∧
    (∀ values,
      parse_json_array stod
          (before ++ ((['"'] ++ key ++ ['"']) ++ (between ++ '[' :: (content ++ ']' :: post))))
          key = some values →
        values.length = (json_tokens content).length) := by
  have h := parse_json_array_eq_parse_all stod key before between content post hlen hfirst hkey
    hbetween hcontent
  refine ⟨h, ?_, ?_⟩
  · intro values
    rw [h]
    exact parse_all_eq_some stod _ values
  · intro values hv
    rw [h] at hv
    have := congrArg List.length ((parse_all_eq_some stod _ values).mp hv)
    simpa using this.symm

/-- C13 on the mean array of the short example artifact: the content `1, 2`
has the tokens `1` and `2`, and the result is `[1, 2]`. -/
theorem parse_json_array_well_formed_witness :
    "\x7b".toList ++ ((['"'] ++ "mean".toList ++ ['"']) ++
      (": ".toList ++ '[' :: ("1, 2".toList ++ ']' :: ", \"scale\": [3]\x7d".toList))) =
      example_scaler_short ∧
    json_tokens "1, 2".toList = ["1".toList, "2".toList] ∧
    parse_json_array example_number example_scaler_short "mean".toList = some [1, 2] ∧
    (parse_json_array example_number
        ("\x7b".toList ++ ((['"'] ++ "mean".toList ++ ['"']) ++
          (": ".toList ++ '[' :: ("1, 2".toList ++ ']' :: ", \"scale\": [3]\x7d".toList))))
        "mean".toList = parse_all example_number (json_tokens "1, 2".toList) ∧
      (∀ values,
        parse_json_array example_number
            ("\x7b".toList ++ ((['"'] ++ "mean".toList ++ ['"']) ++
              (": ".toList ++ '[' :: ("1, 2".toList ++ ']' :: ", \"scale\": [3]\x7d".toList))))
            "mean".toList = some values ↔
          (json_tokens "1, 2".toList).map example_number = values.map some) ∧
      (∀ values,
        parse_json_array example_number
            ("\x7b".toList ++ ((['"'] ++ "mean".toList ++ ['"']) ++
              (": ".toList ++ '[' :: ("1, 2".toList ++ ']' :: ", \"scale\": [3]\x7d".toList))))
            "mean".toList = some values →
          values.length = (json_tokens "1, 2".toList).length)) :=
  ⟨by decide, by decide, by with_unfolding_all decide,
    parse_json_array_well_formed example_number "mean".toList "\x7b".toList ": ".toList
      "1, 2".toList ", \"scale\": [3]\x7d".toList (by decide)
      (by unfold first_occurrence; decide) (by decide) (by decide) (by decide)⟩

/-- C14: when the scaling artifact opens and, in the well-formed array of the
key `mean` or of the key `scale` (as in C13), some token that is not empty
after its whitespace is removed does not parse, then `parse_json_array` throws
on that array (the token is not skipped: no sequence is returned),
`Initialize` returns -999 (neither 0 nor -2), and the initialized flag is as
before the call; in particular an uninitialized session stays
uninitialized. -/
theorem Initialize_unparsable_token (w : World) (g : Globals)
    (model_path scaler_path label_path : String)
    (key before between content post tok : List Char)
    (hopen : w.open_file scaler_path =
      some (before ++ ((['"'] ++ key ++ ['"']) ++
        (between ++ '[' :: (content ++ ']' :: post)))))
    (hkeys : key = "mean".toList ∨ key = "scale".toList)
    (hlen : (before ++ ((['"'] ++ key ++ ['"']) ++
      (between ++ '[' :: (content ++ ']' :: post)))).length < npos)
    (hfirst : first_occurrence (['"'] ++ key ++ ['"'])
      (before ++ ((['"'] ++ key ++ ['"']) ++ (between ++ '[' :: (content ++ ']' :: post))))
      before.length)
    (hbetween : '[' ∉ between) (hcontent : ']' ∉ content)
    (htok : tok ∈ json_tokens content) (hbad : w.stod tok = none) :
    parse_json_array w.stod
        (before ++ ((['"'] ++ key ++ ['"']) ++ (between ++ '[' :: (content ++ ']' :: post))))
        key = none ∧
    (Initialize w g model_path scaler_path label_path).1 = -999 ∧
    (Initialize w g model_path scaler_path label_path).2.g_initialized = g.g_initialized ∧
    (g.g_initialized = false →
      (Initialize w g model_path scaler_path label_path).2.g_initialized = false) := by
  have hkey : '[' ∉ key := by
    rcases hkeys with h | h <;> rw [h] <;> decide
  have hnone : parse_json_array w.stod
      (before ++ ((['"'] ++ key ++ ['"']) ++ (between ++ '[' :: (content ++ ']' :: post))))
      key = none := by
    rw [parse_json_array_eq_parse_all w.stod key before between content post hlen hfirst hkey
      hbetween hcontent]
    exact parse_all_eq_none w.stod tok hbad _ htok
  have hmain : (Initialize w g model_path scaler_path label_path).1 = -999 ∧
      (Initialize w g model_path scaler_path label_path).2.g_initialized = g.g_initialized := by
    unfold Initialize
    rw [hopen]
    dsimp only
    rcases hkeys with h | h
    · subst h
      rw [hnone]
      exact ⟨rfl, rfl⟩
    · subst h
      cases hmean : parse_json_array w.stod
          (before ++ ((['"'] ++ "scale".toList ++ ['"']) ++
            (between ++ '[' :: (content ++ ']' :: post))))
          "mean".toList with
      | none => exact ⟨rfl, rfl⟩
      | some mean =>
        dsimp only
        rw [hnone]
        exact ⟨rfl, rfl⟩
  exact ⟨hnone, hmain.1, hmain.2, fun h => by rw [hmain.2, h]⟩

/-- C14 on an artifact whose mean array is `[1, x]`: the token `x` does not
parse, and `Initialize` at program start returns -999 and leaves the session
uninitialized. -/
theorem Initialize_unparsable_token_witness :
    retry_world.open_file "badtoken.json" =
      some ("\x7b".toList ++ ((['"'] ++ "mean".toList ++ ['"']) ++
        (": ".toList ++ '[' :: ("1, x".toList ++ ']' :: ", \"scale\": [1]\x7d".toList)))) ∧
    "x".toList ∈ json_tokens "1, x".toList ∧ retry_world.stod "x".toList = none ∧
    (parse_json_array retry_world.stod
        ("\x7b".toList ++ ((['"'] ++ "mean".toList ++ ['"']) ++
          (": ".toList ++ '[' :: ("1, x".toList ++ ']' :: ", \"scale\": [1]\x7d".toList))))
        "mean".toList = none ∧
      (Initialize retry_world Globals.initial "model.onnx" "badtoken.json" "labels.json").1
        = -999 ∧
      (Initialize retry_world Globals.initial "model.onnx" "badtoken.json"
        "labels.json").2.g_initialized = Globals.initial.g_initialized ∧
      (Globals.initial.g_initialized = false →
        (Initialize retry_world Globals.initial "model.onnx" "badtoken.json"
          "labels.json").2.g_initialized = false)) :=
  ⟨by decide, by decide, by decide,
    Initialize_unparsable_token retry_world Globals.initial "model.onnx" "badtoken.json"
      "labels.json" "mean".toList "\x7b".toList ": ".toList "1, x".toList
      ", \"scale\": [1]\x7d".toList "x".toList (by decide) (Or.inl rfl) (by decide)
      (by unfold first_occurrence; decide) (by decide) (by decide) (by decide) (by decide)⟩

/-! ## Status codes of `Initialize`: claim C11 -/

/-- The status of `Initialize` as a table of its stages. -/
theorem Initialize_status (w : World) (g : Globals)
    (model_path scaler_path label_path : String) :
    (Initialize w g model_path scaler_path label_path).1 =
      match w.open_file scaler_path with
      | none => -1
      | some content =>
        match parse_json_array w.stod content "mean".toList with
        | none => -999
        | some mean =>
          match parse_json_array w.stod content "scale".toList with
          | none => -999
          | some scale =>
            if mean.length ≠ 20 ∨ scale.length ≠ 20 then -2
            else
              match w.open_file label_path with
              | none => -3
              | some _ =>
                if w.create_env = false then -999
                else
                  match w.create_session model_path with
                  | none => -999
                  | some _ => 0 := by
  rcases h1 : w.open_file scaler_path with _ | content
  · simp [Initialize, h1]
  dsimp only
  rcases h2 : parse_json_array w.stod content "mean".toList with _ | mean
  · unfold Initialize
    rw [h1]
    dsimp only
    rw [h2]
  dsimp only
  rcases h3 : parse_json_array w.stod content "scale".toList with _ | scale
  · unfold Initialize
    rw [h1]
    dsimp only
    rw [h2]
    dsimp only
    rw [h3]
  dsimp only
  by_cases hlen : mean.length ≠ 20 ∨ scale.length ≠ 20
  · rw [if_pos hlen, Initialize_wrong_length w g model_path scaler_path label_path content mean
      scale h1 h2 h3 hlen]
  rw [if_neg hlen]
  simp only [ne_eq, not_or, not_not] at hlen
  rcases h4 : w.open_file label_path with _ | label_content
  · exact (Initialize_after_validation w g model_path scaler_path label_path content mean scale
      h1 h2 h3 hlen.1 hlen.2).2.2.2 h4
  obtain ⟨labels, _, _, heq⟩ := Initialize_label_stage w g model_path scaler_path label_path
    content mean scale label_content h1 h2 h3 hlen.1 hlen.2 h4
  rw [heq]
  dsimp only
  by_cases hce : w.create_env = false
  · rw [if_pos hce, if_pos hce]
  · rw [if_neg hce, if_neg hce]
    cases w.create_session model_path <;> rfl

/-- C11 as stated fails: a scaling artifact with an unparsable token and a model
the engine cannot load are failures of different stages, and `Initialize`
returns -999 for both. -/
theorem Initialize_same_code_counterexample :
    retry_world.open_file "badtoken.json" = some example_scaler_bad_token ∧
    parse_json_array retry_world.stod example_scaler_bad_token "mean".toList = none ∧
    (Initialize retry_world Globals.initial "model.onnx" "badtoken.json" "labels.json").1
      = -999 ∧
    retry_world.open_file "scaler.json" = some example_scaler ∧
    parse_json_array retry_world.stod example_scaler "mean".toList =
      some (List.replicate 20 0) ∧
    parse_json_array retry_world.stod example_scaler "scale".toList =
      some (List.replicate 20 0) ∧
    retry_world.open_file "labels.json" = some example_labels ∧
    retry_world.create_env = true ∧
    retry_world.create_session "other.onnx" = none ∧
    (Initialize retry_world Globals.initial "other.onnx" "scaler.json" "labels.json").1
      = -999 :=
  ⟨by decide, by with_unfolding_all decide, by with_unfolding_all decide, by decide,
    by with_unfolding_all decide, by with_unfolding_all decide, by decide, rfl, rfl,
    by with_unfolding_all decide⟩

/-- C11 (amended): the status of every `Initialize` call is one of 0, -1, -2,
-3 and -999. It is -1 exactly when the scaling artifact does not open; -2
exactly when it opens, both arrays parse and one of them does not have 20
entries; -3 exactly when the scaling profile is valid and the label artifact
does not open: these three codes each identify one stage. It is -999 exactly
when the failure surfaced as an exception, which happens at two different
stages: a token of the scaling artifact does not parse, or the profile and the
labels are loaded and the runtime environment or the engine session cannot be
constructed. -/
theorem Initialize_status_identifies (w : World) (g : Globals)
    (model_path scaler_path label_path : String) :
    ((Initialize w g model_path scaler_path label_path).1 = -1 ↔
      w.open_file scaler_path = none) ∧
    ((Initialize w g model_path scaler_path label_path).1 = -2 ↔
      ∃ content mean scale, w.open_file scaler_path = some content ∧
        parse_json_array w.stod content "mean".toList = some mean ∧
        parse_json_array w.stod content "scale".toList = some scale ∧
        (mean.length ≠ 20 ∨ scale.length ≠ 20)) ∧
    ((Initialize w g model_path scaler_path label_path).1 = -3 ↔
      ∃ content mean scale, w.open_file scaler_path = some content ∧
        parse_json_array w.stod content "mean".toList = some mean ∧
        parse_json_array w.stod content "scale".toList = some scale ∧
        mean.length = 20 ∧ scale.length = 20 ∧ w.open_file label_path = none) ∧
    ((Initialize w g model_path scaler_path label_path).1 = -999 ↔
      ((∃ content, w.open_file scaler_path = some content ∧
          (parse_json_array w.stod content "mean".toList = none ∨
            parse_json_array w.stod content "scale".toList = none)) ∨
        (∃ content mean scale label_content, w.open_file scaler_path = some content ∧
          parse_json_array w.stod content "mean".toList = some mean ∧
          parse_json_array w.stod content "scale".toList = some scale ∧
          mean.length = 20 ∧ scale.length = 20 ∧
          w.open_file label_path = some label_content ∧
          (w.create_env = false ∨ w.create_session model_path = none)))) ∧
    ((Initialize w g model_path scaler_path label_path).1 = 0 ∨
      (Initialize w g model_path scaler_path label_path).1 = -1 ∨
      (Initialize w g model_path scaler_path label_path).1 = -2 ∨
      (Initialize w g model_path scaler_path label_path).1 = -3 ∨
      (Initialize w g model_path scaler_path label_path).1 = -999) := by
  rw [Initialize_status]
  generalize "mean".toList = km
  generalize "scale".toList = ks
  rcases h1 : w.open_file scaler_path with _ | content
  · simp
  rcases h2 : parse_json_array w.stod content km with _ | mean
  · simp [h2]
  rcases h3 : parse_json_array w.stod content ks with _ | scale
  · simp [h2, h3]
  by_cases hlen : mean.length ≠ 20 ∨ scale.length ≠ 20
  · simp [h2, h3, hlen]
    refine ⟨fun ha hb => ?_, fun ha hb => ?_⟩
    · rcases hlen with h | h
      · exact absurd ha h
      · exact absurd hb h
    · rcases hlen with h | h
      · exact absurd ha h
      · exact absurd hb h
  have hlen2 := hlen
  simp only [ne_eq, not_or, not_not] at hlen2
  rcases h4 : w.open_file label_path with _ | label_content
  · simp [h2, h3, hlen, hlen2.1, hlen2.2]
  cases hce : w.create_env
  · simp [h2, h3, hlen, hlen2.1, hlen2.2]
  rcases h5 : w.create_session model_path with _ | session
  · simp [h2, h3, hlen, hlen2.1, hlen2.2]
  · simp [h2, h3, hlen, hlen2.1, hlen2.2]

/-! ## The label map: claim C15 -/

/-- C15, evaluated where the code departs from it. `load_labels` starts from six
empty strings: on the artifact with the keys 0 and 2 only it yields their
values in slots 0 and 2 and empty slots 1, 3, 4, 5, and on the artifact with
the key 1 only it yields empty slots 0 and 2. `Initialize` instead resizes the
global `g_labels`: after a first call that loaded the first artifact and then
failed on the model (-999, session uninitialized), a second call with the
second artifact succeeds and leaves the old labels in slots 0 and 2, whose keys
do not occur in the artifact it loaded. -/
theorem Initialize_keeps_stale_labels :
    load_labels retry_world "labels.json" =
      some ["cat".toList, [], "dog".toList, [], [], []] ∧
    load_labels retry_world "labels_one.json" = some [[], "bird".toList, [], [], [], []] ∧
    (Initialize retry_world Globals.initial "other.onnx" "scaler.json" "labels.json").1
      = -999 ∧
    example_after_failure.g_initialized = false ∧
    example_after_failure.g_labels = ["cat".toList, [], "dog".toList, [], [], []] ∧
    retry_world.open_file "labels_one.json" = some example_labels_one ∧
    find example_labels_one "\"0\"".toList 0 = npos ∧
    find example_labels_one "\"2\"".toList 0 = npos ∧
    (Initialize retry_world example_after_failure "model.onnx" "scaler.json"
      "labels_one.json").1 = 0 ∧
    (Initialize retry_world example_after_failure "model.onnx" "scaler.json"
      "labels_one.json").2.g_labels =
        ["cat".toList, "bird".toList, "dog".toList, [], [], []] :=
  ⟨by decide, by decide, by with_unfolding_all decide, by with_unfolding_all decide,
    by with_unfolding_all decide, by decide, by decide, by decide,
    by with_unfolding_all decide, by with_unfolding_all decide⟩

/-! ## Reachable states: claim C20 -/

/-- A call of `Initialize` keeps the part of the invariant that concerns the
label map. -/
theorem Initialize_labels_length (w : World) (g : Globals)
    (model_path scaler_path label_path : String)
    (hg : g.g_initialized = true → g.g_labels.length = 6) :
    (Initialize w g model_path scaler_path label_path).2.g_initialized = true →
      (Initialize w g model_path scaler_path label_path).2.g_labels.length = 6 := by
  rcases h1 : w.open_file scaler_path with _ | content
  · simp only [Initialize, h1]
    exact hg
  rcases h2 : parse_json_array w.stod content "mean".toList with _ | mean
  · unfold Initialize
    rw [h1]
    dsimp only
    rw [h2]
    exact hg
  rcases h3 : parse_json_array w.stod content "scale".toList with _ | scale
  · unfold Initialize
    rw [h1]
    dsimp only
    rw [h2]
    dsimp only
    rw [h3]
    exact hg
  by_cases hlen : mean.length ≠ 20 ∨ scale.length ≠ 20
  · rw [Initialize_wrong_length w g model_path scaler_path label_path content mean scale h1 h2
      h3 hlen]
    exact hg
  simp only [ne_eq, not_or, not_not] at hlen
  rcases h4 : w.open_file label_path with _ | label_content
  · unfold Initialize
    rw [h1]
    dsimp only
    rw [h2]
    dsimp only
    rw [h3]
    dsimp only
    rw [if_neg (by simp [hlen.1, hlen.2]), h4]
    exact hg
  · intro _
    obtain ⟨labels, _, hl, heq⟩ := Initialize_label_stage w g model_path scaler_path label_path
      content mean scale label_content h1 h2 h3 hlen.1 hlen.2 h4
    rw [heq]
    split_ifs
    · exact hl
    · cases w.create_session model_path <;> exact hl

/-- In every reachable state an initialized session has a label map of 6
slots. -/
theorem run_labels_length :
    ∀ (calls : List Call) (g : Globals),
      (g.g_initialized = true → g.g_labels.length = 6) →
      (run g calls).g_initialized = true → (run g calls).g_labels.length = 6 := by
  intro calls
  induction calls with
  | nil => intro g hg; exact hg
  | cons c cs ih =>
    intro g hg
    rw [run, List.foldl_cons]
    apply ih
    cases c with
    | init w model_path scaler_path label_path =>
      exact Initialize_labels_length w g model_path scaler_path label_path hg
    | predict _ _ _ _ => exact hg
    | predictFromCSV _ _ _ _ _ => exact hg
    | getClassName _ _ _ => exact hg
    | cleanup => intro h; exact absurd h (by simp [Call.after, Cleanup])

theorem reachable_labels_length (g : Globals) (h : Reachable g)
    (hinit : g.g_initialized = true) : g.g_labels.length = 6 := by
  obtain ⟨calls, rfl⟩ := h
  exact run_labels_length calls Globals.initial (fun h => absurd h (by decide)) hinit

/-- An `Initialize` called on an uninitialized session leaves a profile of the
right lengths whenever it leaves the session initialized. -/
theorem Initialize_fresh_lengths (w : World) (g : Globals)
    (model_path scaler_path label_path : String) (hg : g.g_initialized = false)
    (h : (Initialize w g model_path scaler_path label_path).2.g_initialized = true) :
    (Initialize w g model_path scaler_path label_path).2.g_mean.length = 20 ∧
    (Initialize w g model_path scaler_path label_path).2.g_scale.length = 20 ∧
    (Initialize w g model_path scaler_path label_path).2.g_labels.length = 6 := by
  obtain ⟨hzero, hnonzero⟩ := Initialize_flag w g model_path scaler_path label_path
  have h0 : (Initialize w g model_path scaler_path label_path).1 = 0 := by
    by_contra hne
    rw [hnonzero hne, hg] at h
    exact absurd h (by decide)
  obtain ⟨_, content, mean, scale, label_content, session, h1, h2, h3, hm, hs, _, _, _⟩ :=
    hzero h0
  obtain ⟨_, hmean, hscale, _⟩ := Initialize_after_validation w g model_path scaler_path
    label_path content mean scale h1 h2 h3 hm hs
  refine ⟨by rw [hmean, hm], by rw [hscale, hs], ?_⟩
  exact Initialize_labels_length w g model_path scaler_path label_path
    (fun hi => absurd (hg ▸ hi) (by decide)) h

/-- The invariant of C20 holds along every sequence of calls in which
`Initialize` is only called on an uninitialized session. -/
theorem guarded_run_invariant :
    ∀ (calls : List Call) (g : Globals),
      (g.g_initialized = true →
        g.g_mean.length = 20 ∧ g.g_scale.length = 20 ∧ g.g_labels.length = 6) →
      guarded g calls → (run g calls).g_initialized = true →
      (run g calls).g_mean.length = 20 ∧ (run g calls).g_scale.length = 20 ∧
        (run g calls).g_labels.length = 6 := by
  intro calls
  induction calls with
  | nil => intro g hg _; exact hg
  | cons c cs ih =>
    intro g hg hguard
    rw [run, List.foldl_cons]
    apply ih _ _ hguard.2
    cases c with
    | init w model_path scaler_path label_path =>
      exact Initialize_fresh_lengths w g model_path scaler_path label_path hguard.1
    | predict _ _ _ _ => exact hg
    | predictFromCSV _ _ _ _ _ => exact hg
    | getClassName _ _ _ => exact hg
    | cleanup => intro h; exact absurd h (by simp [Call.after, Cleanup])

/-- C20, evaluated where the code departs from it: after a successful
`Initialize` and a second `Initialize` that rejects a short scaling artifact
(-2), the state is reachable, the session is still initialized, and the stored
mean and scale have 2 and 1 entries; a `Predict` with 20 features then reads
`g_mean[2]` past the end of the vector, which the model marks as undefined.
The label map has its 6 slots. -/
theorem reinitialize_breaks_profile_lengths :
    Reachable example_reinitialized ∧
    (Initialize retry_world Globals.initial "model.onnx" "scaler.json" "labels.json").1 = 0 ∧
    (Initialize retry_world
      (Initialize retry_world Globals.initial "model.onnx" "scaler.json" "labels.json").2
      "model.onnx" "short.json" "labels.json").1 = -2 ∧
    example_reinitialized.g_initialized = true ∧
    example_reinitialized.g_mean = [1, 2] ∧ example_reinitialized.g_scale = [3] ∧
    example_reinitialized.g_mean.length ≠ 20 ∧ example_reinitialized.g_scale.length ≠ 20 ∧
    example_reinitialized.g_labels.length = 6 ∧
    Predict example_reinitialized (fun _ => 0) 20 (fun _ => 0) 0 = none :=
  ⟨⟨_, rfl⟩, by with_unfolding_all decide, by with_unfolding_all decide,
    by with_unfolding_all decide, by with_unfolding_all decide, by with_unfolding_all decide,
    by with_unfolding_all decide, by with_unfolding_all decide, by with_unfolding_all decide,
    by with_unfolding_all rfl⟩

end ClassifierDLL
